import Mathlib

/-!
# Snake game (`src/js/snake.js`): state machine of the `snake-game` component

A shallow embedding of the game logic of the A-Frame component: the mutable fields
`snake`, `direction`, `nextDirection`, `food`, `score`, `gameOver` become a record
`GameState`, every method becomes a function on that record.

What is left out is the renderer: the `element` handle of a segment or of the food and all
scene-graph calls (`createElement`, `setAttribute`, `appendChild`, `removeChild`), which never
feed back into the fields above.  Timers (`setInterval`, `setTimeout`) are the environment that
decides *when* a method runs; each method body runs to completion (JavaScript is
single-threaded), so a method is one atomic transition.

Two inputs of the environment are explicit parameters:
* `rng : Nat → Int`, the stream of values `Math.floor(Math.random() * gridSize)` in the order
  in which a call draws them;
* `scoreElement : Bool`, whether `document.getElementById('score')` is non-null.
-/

namespace Snake

/-! ## Data model -/

/-- A grid position `{x, y}` (the food object without its `element`). -/
structure Cell where
  x : Int
  y : Int
deriving DecidableEq

/-- A movement vector `{x, y}` (`this.direction`, `this.nextDirection`). -/
structure Dir where
  x : Int
  y : Int
deriving DecidableEq

/-- An entry of `this.snake`: `{x, y, element, isHead}` without the `element` handle. -/
structure Segment where
  x : Int
  y : Int
  isHead : Bool
deriving DecidableEq

/-- The mutable fields of the component. `food = none` is `this.food === null`. -/
structure GameState where
  snake : List Segment
  direction : Dir
  nextDirection : Dir
  food : Option Cell
  score : Nat
  gameOver : Bool
deriving DecidableEq

/-- How a method call ended: it returned, or a `TypeError` was thrown out of it. -/
inductive Outcome where
  | completed
  | typeError
deriving DecidableEq

/-- The fields as a call leaves them, and how the call ended. A JavaScript exception does not
undo the assignments made before it, so a thrown call has a state too. -/
structure StepResult where
  state : GameState
  outcome : Outcome
deriving DecidableEq

/-- The grid position of a segment. -/
def Segment.cell (seg : Segment) : Cell := ⟨seg.x, seg.y⟩

/-- The grid positions of the snake, head first. -/
def cells (snake : List Segment) : List Cell := snake.map Segment.cell

/-! ## Configuration -/

/-- `this.config.snakeStartLength`. -/
def snakeStartLength : Nat := 3

/-- `Math.floor(this.data.gridSize / 2)`. -/
def halfGrid (gridSize : Int) : Int := gridSize / 2

/-- `const maxAttempts = 100` of `spawnFood`. -/
def maxAttempts : Nat := 100

/-! ## resetGameState, createInitialSnake -/

/-- `resetGameState`: the field assignments of lines 59-64 (`clearGameEntities` has already
emptied `snake` and `food`). The missing score element is tolerated here. -/
def resetGameState (_s : GameState) : GameState :=
  { snake := [], direction := ⟨1, 0⟩, nextDirection := ⟨1, 0⟩, food := none, score := 0,
    gameOver := false }

/-- `addSnakeSegment(position, isHead)`: `this.snake.push({x, y, element, isHead})`. -/
def addSnakeSegment (x y : Int) (isHead : Bool) (s : GameState) : GameState :=
  { s with snake := s.snake ++ [⟨x, y, isHead⟩] }

/-- The `for (let i = 0; i < snakeStartLength; i++)` loop of `createInitialSnake`, run from
index `i` for `n` more rounds. -/
def createLoop : Nat → Nat → GameState → GameState
  | 0, _, s => s
  | n + 1, i, s => createLoop n (i + 1) (addSnakeSegment (-(i : Int)) 0 (i == 0) s)

/-- `createInitialSnake`: empty the snake, then push `snakeStartLength` segments. -/
def createInitialSnake (s : GameState) : GameState :=
  createLoop snakeStartLength 0 { s with snake := [] }

/-! ## spawnFood -/

/-- `segment.x === x && segment.y === y` under `this.snake.some(...)`. -/
def occupied (snake : List Segment) (x y : Int) : Bool :=
  snake.any (fun segment => decide (segment.x = x) && decide (segment.y = y))

/-- The cell drawn in round `attempts` of the loop of `spawnFood`: two samples, each shifted by
`-halfGrid`. -/
def sampledCell (gridSize : Int) (rng : Nat → Int) (attempts : Nat) : Cell :=
  ⟨rng (2 * attempts) - halfGrid gridSize, rng (2 * attempts + 1) - halfGrid gridSize⟩

/-- The loop `while (!validPosition && attempts < maxAttempts)` of `spawnFood`, entered with
`validPosition = false`, with `remaining = maxAttempts - attempts` rounds left. The result is
the accepted cell (`none` when the loop ends with `validPosition = false`) and the final value
of `attempts`. -/
def sampleLoop (gridSize : Int) (snake : List Segment) (rng : Nat → Int) :
    Nat → Nat → Option Cell × Nat
  | 0, attempts => (none, attempts)
  | remaining + 1, attempts =>
    let c := sampledCell gridSize rng attempts
    let validPosition := !occupied snake c.x c.y
    if validPosition then (some c, attempts + 1)
    else sampleLoop gridSize snake rng remaining (attempts + 1)

/-- `spawnFood`: on exhaustion the early `return` leaves every field as it was, otherwise
`this.food = {x, y, element}`. -/
def spawnFood (gridSize : Int) (rng : Nat → Int) (s : GameState) : GameState :=
  match (sampleLoop gridSize s.snake rng maxAttempts 0).1 with
  | none => s
  | some c => { s with food := some c }

/-- The number of cells `spawnFood` samples (the final value of `attempts`). -/
def spawnFoodAttempts (gridSize : Int) (rng : Nat → Int) (s : GameState) : Nat :=
  (sampleLoop gridSize s.snake rng maxAttempts 0).2

/-! ## gameStep -/

/-- The synchronous part of `handleGameOver`: `this.gameOver = true` unless already set. The
restart it schedules is a later transition. -/
def handleGameOver (s : GameState) : GameState :=
  if s.gameOver then s else { s with gameOver := true }

/-- `Math.abs(newX) > halfGrid || Math.abs(newY) > halfGrid`. -/
def wallCollision (gridSize newX newY : Int) : Bool :=
  decide ((newX.natAbs : Int) > halfGrid gridSize) ||
    decide ((newY.natAbs : Int) > halfGrid gridSize)

/-- The loop `for (let i = 0; i < this.snake.length - 1; i++)` of `gameStep`: does some
segment of index below `length - 1` sit on `(newX, newY)`. -/
def selfCollision (snake : List Segment) (newX newY : Int) : Bool :=
  (snake.take (snake.length - 1)).any
    (fun segment => decide (segment.x = newX) && decide (segment.y = newY))

/-- `this.food && newHead.x === this.food.x && newHead.y === this.food.y`. -/
def foodAt (food : Option Cell) (newX newY : Int) : Bool :=
  match food with
  | none => false
  | some f => decide (newX = f.x) && decide (newY = f.y)

/-- `gameStep`, one tick. -/
def gameStep (gridSize : Int) (scoreElement : Bool) (rng : Nat → Int) (s : GameState) :
    StepResult :=
  if s.gameOver then ⟨s, .completed⟩
  else
    let s1 := { s with direction := s.nextDirection }
    match s1.snake with
    | [] => ⟨s1, .typeError⟩
    | head :: rest =>
      let newX := head.x + s1.direction.x
      let newY := head.y + s1.direction.y
      if wallCollision gridSize newX newY then ⟨handleGameOver s1, .completed⟩
      else if selfCollision s1.snake newX newY then ⟨handleGameOver s1, .completed⟩
      else
        let newHead : Segment := ⟨newX, newY, true⟩
        let s2 := { s1 with snake := newHead :: { head with isHead := false } :: rest }
        if foodAt s2.food newHead.x newHead.y then
          let s3 := { s2 with score := s2.score + 10 }
          if scoreElement then ⟨spawnFood gridSize rng s3, .completed⟩
          else ⟨s3, .typeError⟩
        else ⟨{ s2 with snake := s2.snake.dropLast }, .completed⟩

/-! ## Keyboard input -/

/-- The `keydown` listener installed by `setupControls`, as a function of `event.key`. -/
def keydownHandler (key : String) (s : GameState) : GameState :=
  if key = "ArrowUp" ∨ key = "w" then
    if s.direction.y ≠ 1 then { s with nextDirection := ⟨0, -1⟩ } else s
  else if key = "ArrowDown" ∨ key = "s" then
    if s.direction.y ≠ -1 then { s with nextDirection := ⟨0, 1⟩ } else s
  else if key = "ArrowLeft" ∨ key = "a" then
    if s.direction.x ≠ 1 then { s with nextDirection := ⟨-1, 0⟩ } else s
  else if key = "ArrowRight" ∨ key = "d" then
    if s.direction.x ≠ -1 then { s with nextDirection := ⟨1, 0⟩ } else s
  else s

/-- The direction each `case` label of the listener asks for. -/
def keyDirection (key : String) : Option Dir :=
  if key = "ArrowUp" ∨ key = "w" then some ⟨0, -1⟩
  else if key = "ArrowDown" ∨ key = "s" then some ⟨0, 1⟩
  else if key = "ArrowLeft" ∨ key = "a" then some ⟨-1, 0⟩
  else if key = "ArrowRight" ∨ key = "d" then some ⟨1, 0⟩
  else none

/-- A sequence of `keydown` events delivered in order, with no tick in between. -/
def keydownSeq (keys : List String) (s : GameState) : GameState :=
  keys.foldl (fun st key => keydownHandler key st) s

/-- Repeated ticks, the i-th of them drawing from the i-th stream of `rngs`. -/
def gameSteps (gridSize : Int) (scoreElement : Bool) (rngs : List (Nat → Int))
    (s : GameState) : GameState :=
  rngs.foldl (fun st rng => (gameStep gridSize scoreElement rng st).state) s

/-! ## Scenarios -/

/-- Scenario A: snake `[(0,0),(-1,0),(-2,0)]` heading right, food at `(1,0)`. -/
def scenarioA : GameState :=
  { snake := [⟨0, 0, true⟩, ⟨-1, 0, false⟩, ⟨-2, 0, false⟩], direction := ⟨1, 0⟩,
    nextDirection := ⟨1, 0⟩, food := some ⟨1, 0⟩, score := 0, gameOver := false }

/-- Scenario B: head at the grid edge `(9,0)` of a grid of size 19, heading right. -/
def scenarioB : GameState :=
  { snake := [⟨9, 0, true⟩, ⟨8, 0, false⟩, ⟨7, 0, false⟩], direction := ⟨1, 0⟩,
    nextDirection := ⟨1, 0⟩, food := some ⟨3, 3⟩, score := 0, gameOver := false }

/-- Scenario C: snake `[(0,0),(-1,0),(-2,0),(-3,0)]` heading right. -/
def scenarioC : GameState :=
  { snake := [⟨0, 0, true⟩, ⟨-1, 0, false⟩, ⟨-2, 0, false⟩, ⟨-3, 0, false⟩],
    direction := ⟨1, 0⟩, nextDirection := ⟨1, 0⟩, food := some ⟨5, 5⟩, score := 10,
    gameOver := false }

/-- A snake coiled in a 2x2 square whose head is about to enter its tail cell `(1,0)`;
`food` is the food field. -/
def coiled (food : Option Cell) : GameState :=
  { snake := [⟨0, 0, true⟩, ⟨0, 1, false⟩, ⟨1, 1, false⟩, ⟨1, 0, false⟩],
    direction := ⟨0, -1⟩, nextDirection := ⟨1, 0⟩, food := food, score := 10,
    gameOver := false }

/-- Scenario B one tick later: the game is over. -/
def scenarioOver : GameState :=
  { snake := [⟨9, 0, true⟩, ⟨8, 0, false⟩, ⟨7, 0, false⟩], direction := ⟨1, 0⟩,
    nextDirection := ⟨0, 1⟩, food := some ⟨3, 3⟩, score := 0, gameOver := true }

/-- A sample stream that always yields `v`. -/
def constRng (v : Int) : Nat → Int := fun _ => v

/-- A sample stream whose first cell is `(0,0)` on a grid of size 19 and whose later cells
are `(-6,-6)`. -/
def retryRng : Nat → Int := fun k => if k < 2 then 9 else 3

/-- Scenario A at the moment `gameStep` calls `spawnFood`: the head has moved onto the food
cell `(1,0)`, the score is raised, `food` still holds the eaten food. -/
def scenarioAEaten : GameState :=
  { snake := [⟨1, 0, true⟩, ⟨0, 0, false⟩, ⟨-1, 0, false⟩, ⟨-2, 0, false⟩],
    direction := ⟨1, 0⟩, nextDirection := ⟨1, 0⟩, food := some ⟨1, 0⟩, score := 10,
    gameOver := false }

/-! ## Vocabulary of the properties -/

/-- The cell `c` is a snake cell at some index `0 .. length - 2`. -/
def hitsBody (snake : List Segment) (c : Cell) : Prop :=
  ∃ i, i < snake.length - 1 ∧ (cells snake)[i]? = some c

instance (snake : List Segment) (c : Cell) : Decidable (hitsBody snake c) :=
  inferInstanceAs (Decidable (∃ i, i < snake.length - 1 ∧ (cells snake)[i]? = some c))

/-- The four unit vectors. -/
def isCardinal (d : Dir) : Prop :=
  d = ⟨1, 0⟩ ∨ d = ⟨-1, 0⟩ ∨ d = ⟨0, 1⟩ ∨ d = ⟨0, -1⟩

/-- The exact opposite `-d` of a vector. -/
def Dir.opposite (d : Dir) : Dir := ⟨-d.x, -d.y⟩

/-- The direction asked for by the last event of `keys` that maps to a direction other than
the opposite of `d`, if there is one. -/
def lastAccepted (d : Dir) (keys : List String) : Option Dir :=
  ((keys.filterMap keyDirection).filter (fun dir => decide (dir ≠ d.opposite))).getLast?

/-- Every sample is a value `Math.floor(Math.random() * gridSize)` can take:
an integer in `[0, gridSize)`. -/
def ValidRng (gridSize : Int) (rng : Nat → Int) : Prop :=
  ∀ k, 0 ≤ rng k ∧ rng k < gridSize

/-- Both coordinates of `c` lie in `[-halfGrid, halfGrid]`. -/
def inBounds (gridSize : Int) (c : Cell) : Prop :=
  -halfGrid gridSize ≤ c.x ∧ c.x ≤ halfGrid gridSize ∧
    -halfGrid gridSize ≤ c.y ∧ c.y ≤ halfGrid gridSize

/-- Consecutive cells of `cs` are one unit step apart along one axis: `|dx| + |dy| = 1`. -/
def contiguous (cs : List Cell) : Prop :=
  ∀ (i : Nat) (a b : Cell), cs[i]? = some a → cs[i + 1]? = some b →
    |a.x - b.x| + |a.y - b.y| = 1

/-- The first segment is flagged `isHead`, no later one is. -/
def onlyFirstIsHead (snake : List Segment) : Prop :=
  ∃ head rest, snake = head :: rest ∧ head.isHead = true ∧ ∀ seg ∈ rest, seg.isHead = false

/-- The head is one step of `d` ahead of the second segment: `snake[0] - snake[1] = d`. -/
def neckBehind (snake : List Segment) (d : Dir) : Prop :=
  ∃ head neck rest, snake = head :: neck :: rest ∧
    head.x - neck.x = d.x ∧ head.y - neck.y = d.y

/-! ## Start, restart and reachable states -/

/-- The start sequence `resetGameState(); createInitialSnake(); spawnFood();`, run by `init`
and again by the restart callback that `handleGameOver` schedules. -/
def startGame (gridSize : Int) (rng : Nat → Int) (s : GameState) : GameState :=
  spawnFood gridSize rng (createInitialSnake (resetGameState s))

/-- The states the component can be in between two callbacks, for a grid size and a page with
or without the score element: the state `init` leaves, and from there any key event, any tick
of the interval timer, and the restart after a game over. Every call draws from its own sample
stream. The restart callback runs only after `handleGameOver` has set the flag; its later
`this.gameOver = false` finds the flag already cleared by `resetGameState`, since no tick runs
before `startGameMovement`. -/
inductive Reachable (gridSize : Int) (scoreElement : Bool) : GameState → Prop where
  | init (s0 : GameState) (rng : Nat → Int) (hrng : ValidRng gridSize rng) :
      Reachable gridSize scoreElement (startGame gridSize rng s0)
  | key (s : GameState) (k : String) (hs : Reachable gridSize scoreElement s) :
      Reachable gridSize scoreElement (keydownHandler k s)
  | tick (s : GameState) (rng : Nat → Int) (hrng : ValidRng gridSize rng)
      (hs : Reachable gridSize scoreElement s) :
      Reachable gridSize scoreElement (gameStep gridSize scoreElement rng s).state
  | restart (s : GameState) (rng : Nat → Int) (hrng : ValidRng gridSize rng)
      (hs : Reachable gridSize scoreElement s) (hover : s.gameOver = true) :
      Reachable gridSize scoreElement (startGame gridSize rng s)

/-! ## Traces -/

/-- A sample stream whose first cell is `(1,0)` on a grid of size 19. -/
def foodAheadRng : Nat → Int := fun k => if k = 0 then 10 else 9

/-- Scenario A after the tick in which the head eats the food and every draw of `spawnFood`
gives 9, then the keys s, a, w, each followed by a tick: the snake has turned round a 2x2
square. -/
def staleCoil : GameState :=
  (gameStep 19 true (constRng 3) (keydownHandler "w"
    (gameStep 19 true (constRng 3) (keydownHandler "a"
      (gameStep 19 true (constRng 3) (keydownHandler "s"
        (gameStep 19 true (constRng 9) scenarioA).state)).state)).state)).state

/-- The state `staleCoil` after the key d and one more tick. -/
def staleCoilEaten : GameState :=
  (gameStep 19 true (constRng 3) (keydownHandler "d" staleCoil)).state

/-- A game on a grid of size 19 started with food at `(-6,-6)`: nine ticks to the right edge,
the key w and a tick up, then the key d and a tick into the right wall. -/
def turnedIntoWall : GameState :=
  (gameStep 19 true (constRng 3) (keydownHandler "d"
    (gameStep 19 true (constRng 3) (keydownHandler "w"
      (gameSteps 19 true (List.replicate 9 (constRng 3))
        (startGame 19 (constRng 3) scenarioOver)))).state)).state

/-! ## Helper lemmas -/

theorem wallCollision_eq_true_iff (gridSize newX newY : Int) :
    wallCollision gridSize newX newY = true ↔
      halfGrid gridSize < |newX| ∨ halfGrid gridSize < |newY| := by
  simp [wallCollision, Int.natCast_natAbs]

theorem wallCollision_eq_false_iff (gridSize newX newY : Int) :
    wallCollision gridSize newX newY = false ↔
      |newX| ≤ halfGrid gridSize ∧ |newY| ≤ halfGrid gridSize := by
  simp [wallCollision, Int.natCast_natAbs]

theorem any_eq_true_iff_cell_mem (l : List Segment) (x y : Int) :
    l.any (fun segment => decide (segment.x = x) && decide (segment.y = y)) = true ↔
      (⟨x, y⟩ : Cell) ∈ cells l := by
  simp only [cells, List.any_eq_true, List.mem_map, Bool.and_eq_true, decide_eq_true_eq]
  constructor
  · rintro ⟨seg, hmem, hx, hy⟩
    exact ⟨seg, hmem, by simp [Segment.cell, hx, hy]⟩
  · rintro ⟨seg, hmem, hc⟩
    simp only [Segment.cell, Cell.mk.injEq] at hc
    exact ⟨seg, hmem, hc.1, hc.2⟩

theorem hitsBody_iff_mem_dropLast (snake : List Segment) (c : Cell) :
    hitsBody snake c ↔ c ∈ (cells snake).dropLast := by
  unfold hitsBody
  rw [List.dropLast_eq_take, List.mem_iff_getElem?]
  constructor
  · rintro ⟨i, hi, hc⟩
    refine ⟨i, ?_⟩
    rw [List.getElem?_take_of_lt (by simp [cells]; omega)]
    exact hc
  · rintro ⟨i, hc⟩
    have hlt : i < (cells snake).length - 1 := by
      by_contra hge
      rw [List.getElem?_take_eq_none (by omega)] at hc
      exact absurd hc (by simp)
    rw [List.getElem?_take_of_lt hlt] at hc
    exact ⟨i, by simpa [cells] using hlt, hc⟩

theorem selfCollision_eq_true_iff (snake : List Segment) (x y : Int) :
    selfCollision snake x y = true ↔ hitsBody snake ⟨x, y⟩ := by
  rw [hitsBody_iff_mem_dropLast, selfCollision, any_eq_true_iff_cell_mem]
  simp [cells, List.dropLast_eq_take, List.map_take]

theorem foodAt_eq_true_iff (food : Option Cell) (x y : Int) :
    foodAt food x y = true ↔ food = some ⟨x, y⟩ := by
  cases food with
  | none => simp [foodAt]
  | some f =>
    cases f with
    | mk fx fy =>
      simp only [foodAt, Bool.and_eq_true, decide_eq_true_eq, Option.some.injEq, Cell.mk.injEq]
      constructor
      · rintro ⟨h1, h2⟩; exact ⟨h1.symm, h2.symm⟩
      · rintro ⟨h1, h2⟩; exact ⟨h1.symm, h2.symm⟩

theorem cells_dropLast (snake : List Segment) :
    cells snake.dropLast = (cells snake).dropLast := by
  simp [cells, List.dropLast_eq_take, List.map_take]

/-- The state of an alive game with a non-empty snake after one tick, by cases. -/
theorem gameStep_alive (gridSize : Int) (scoreElement : Bool) (rng : Nat → Int)
    (s : GameState) (head : Segment) (rest : List Segment)
    (hsnake : s.snake = head :: rest) (halive : s.gameOver = false) :
    gameStep gridSize scoreElement rng s =
      if wallCollision gridSize (head.x + s.nextDirection.x) (head.y + s.nextDirection.y) = true ∨
          selfCollision s.snake (head.x + s.nextDirection.x) (head.y + s.nextDirection.y) = true
      then ⟨{ s with direction := s.nextDirection, gameOver := true }, .completed⟩
      else if foodAt s.food (head.x + s.nextDirection.x) (head.y + s.nextDirection.y) = true then
        if scoreElement = true then
          ⟨spawnFood gridSize rng
            { s with
              direction := s.nextDirection
              snake := ⟨head.x + s.nextDirection.x, head.y + s.nextDirection.y, true⟩ ::
                { head with isHead := false } :: rest
              score := s.score + 10 }, .completed⟩
        else
          ⟨{ s with
              direction := s.nextDirection
              snake := ⟨head.x + s.nextDirection.x, head.y + s.nextDirection.y, true⟩ ::
                { head with isHead := false } :: rest
              score := s.score + 10 }, .typeError⟩
      else
        ⟨{ s with
            direction := s.nextDirection
            snake := (⟨head.x + s.nextDirection.x, head.y + s.nextDirection.y, true⟩ ::
              { head with isHead := false } :: rest).dropLast }, .completed⟩ := by
  unfold gameStep
  simp only [halive, hsnake, handleGameOver, Bool.false_eq_true, if_false]
  by_cases hw : wallCollision gridSize (head.x + s.nextDirection.x)
      (head.y + s.nextDirection.y) = true
  · simp [hw]
  · by_cases hc : selfCollision (head :: rest) (head.x + s.nextDirection.x)
        (head.y + s.nextDirection.y) = true
    · simp [hw, hc]
    · simp [hw, hc]

theorem spawnFood_fields (gridSize : Int) (rng : Nat → Int) (s : GameState) :
    (spawnFood gridSize rng s).snake = s.snake ∧
      (spawnFood gridSize rng s).direction = s.direction ∧
      (spawnFood gridSize rng s).nextDirection = s.nextDirection ∧
      (spawnFood gridSize rng s).score = s.score ∧
      (spawnFood gridSize rng s).gameOver = s.gameOver := by
  unfold spawnFood
  split <;> simp

theorem cells_demote (head : Segment) (rest : List Segment) :
    cells ({ head with isHead := false } :: rest) = cells (head :: rest) := by
  simp [cells, Segment.cell]

/-! ## The tick: growth, movement, collisions -/

/-- C1: on a food tick (game alive, snake non-empty, new head within the bounds, on no snake
cell of index 0..length-2, and on the food) the snake after `gameStep` is the new head followed
by all the old cells in their order, one longer than before, and the score is 10 higher; this
holds with the score display present (the call completes) or absent. -/
theorem gameStep_food_tick_grows (gridSize : Int) (scoreElement : Bool) (rng : Nat → Int)
    (s : GameState) (head : Segment) (rest : List Segment)
    (hsnake : s.snake = head :: rest) (halive : s.gameOver = false)
    (hx : |head.x + s.nextDirection.x| ≤ halfGrid gridSize)
    (hy : |head.y + s.nextDirection.y| ≤ halfGrid gridSize)
    (hbody : ¬ hitsBody s.snake ⟨head.x + s.nextDirection.x, head.y + s.nextDirection.y⟩)
    (hfood : s.food = some ⟨head.x + s.nextDirection.x, head.y + s.nextDirection.y⟩) :
    cells (gameStep gridSize scoreElement rng s).state.snake =
        ⟨head.x + s.nextDirection.x, head.y + s.nextDirection.y⟩ :: cells s.snake ∧
      (gameStep gridSize scoreElement rng s).state.snake.length = s.snake.length + 1 ∧
      (gameStep gridSize scoreElement rng s).state.score = s.score + 10 ∧
      (gameStep gridSize scoreElement rng s).state.gameOver = false ∧
      (scoreElement = true →
        (gameStep gridSize scoreElement rng s).outcome = Outcome.completed) := by
  have hw := (wallCollision_eq_false_iff gridSize _ _).mpr ⟨hx, hy⟩
  have hc : selfCollision s.snake (head.x + s.nextDirection.x)
      (head.y + s.nextDirection.y) = false := by
    rw [← Bool.not_eq_true, selfCollision_eq_true_iff]; exact hbody
  have hf := (foodAt_eq_true_iff s.food _ _).mpr hfood
  rw [gameStep_alive gridSize scoreElement rng s head rest hsnake halive]
  simp only [hw, hc, hf, Bool.false_eq_true, or_self, if_false, if_true]
  cases scoreElement with
  | true =>
    simp only [if_true]
    obtain ⟨h1, -, -, h4, h5⟩ := spawnFood_fields gridSize rng
      { s with
        direction := s.nextDirection
        snake := ⟨head.x + s.nextDirection.x, head.y + s.nextDirection.y, true⟩ ::
          { head with isHead := false } :: rest
        score := s.score + 10 }
    rw [h1, h4, h5, hsnake]
    simp [cells, Segment.cell, halive]
  | false =>
    simp [cells, Segment.cell, halive, hsnake]

/-- Witness of C1 (scenario A): snake [(0,0),(-1,0),(-2,0)], direction (1,0), food (1,0), on
a grid of size 19: the snake becomes [(1,0),(0,0),(-1,0),(-2,0)] and the score rises by 10. -/
theorem gameStep_food_tick_grows_witness :
    cells (gameStep 19 true (constRng 3) scenarioA).state.snake =
        [⟨1, 0⟩, ⟨0, 0⟩, ⟨-1, 0⟩, ⟨-2, 0⟩] ∧
      (gameStep 19 true (constRng 3) scenarioA).state.snake.length = 3 + 1 ∧
      (gameStep 19 true (constRng 3) scenarioA).state.score = scenarioA.score + 10 ∧
      (gameStep 19 true (constRng 3) scenarioA).state.gameOver = false ∧
      (true = true → (gameStep 19 true (constRng 3) scenarioA).outcome = Outcome.completed) :=
  gameStep_food_tick_grows 19 true (constRng 3) scenarioA ⟨0, 0, true⟩
    [⟨-1, 0, false⟩, ⟨-2, 0, false⟩] rfl rfl (by decide) (by decide) (by decide) rfl

/-- C2: on a non-food tick (game alive, snake non-empty, new head within the bounds, on no
snake cell of index 0..length-2, food unset or elsewhere) the snake after `gameStep` is the new
head followed by the old cells without the last one, of the same length; the direction is the
old pending direction; score, food and the game-over flag are unchanged. -/
theorem gameStep_plain_tick_moves (gridSize : Int) (scoreElement : Bool) (rng : Nat → Int)
    (s : GameState) (head : Segment) (rest : List Segment)
    (hsnake : s.snake = head :: rest) (halive : s.gameOver = false)
    (hx : |head.x + s.nextDirection.x| ≤ halfGrid gridSize)
    (hy : |head.y + s.nextDirection.y| ≤ halfGrid gridSize)
    (hbody : ¬ hitsBody s.snake ⟨head.x + s.nextDirection.x, head.y + s.nextDirection.y⟩)
    (hfood : s.food ≠ some ⟨head.x + s.nextDirection.x, head.y + s.nextDirection.y⟩) :
    cells (gameStep gridSize scoreElement rng s).state.snake =
        ⟨head.x + s.nextDirection.x, head.y + s.nextDirection.y⟩ :: (cells s.snake).dropLast ∧
      (gameStep gridSize scoreElement rng s).state.snake.length = s.snake.length ∧
      (gameStep gridSize scoreElement rng s).state.direction = s.nextDirection ∧
      (gameStep gridSize scoreElement rng s).state.nextDirection = s.nextDirection ∧
      (gameStep gridSize scoreElement rng s).state.score = s.score ∧
      (gameStep gridSize scoreElement rng s).state.food = s.food ∧
      (gameStep gridSize scoreElement rng s).state.gameOver = false ∧
      (gameStep gridSize scoreElement rng s).outcome = Outcome.completed := by
  have hw := (wallCollision_eq_false_iff gridSize _ _).mpr ⟨hx, hy⟩
  have hc : selfCollision s.snake (head.x + s.nextDirection.x)
      (head.y + s.nextDirection.y) = false := by
    rw [← Bool.not_eq_true, selfCollision_eq_true_iff]; exact hbody
  have hf : foodAt s.food (head.x + s.nextDirection.x) (head.y + s.nextDirection.y) = false := by
    rw [← Bool.not_eq_true, foodAt_eq_true_iff]; exact hfood
  rw [gameStep_alive gridSize scoreElement rng s head rest hsnake halive]
  simp only [hw, hc, hf, Bool.false_eq_true, or_self, if_false]
  refine ⟨?_, ?_, trivial, trivial, trivial, trivial, halive, trivial⟩
  · rw [hsnake, List.dropLast_cons₂, ← cells_dropLast]
    cases rest <;> simp [cells, Segment.cell]
  · simp [hsnake]

/-- Witness of C2: the snake of scenario C, whose food is elsewhere, moves one cell right. -/
theorem gameStep_plain_tick_moves_witness :
    cells (gameStep 19 true (constRng 3) scenarioC).state.snake =
        [⟨1, 0⟩, ⟨0, 0⟩, ⟨-1, 0⟩, ⟨-2, 0⟩] ∧
      (gameStep 19 true (constRng 3) scenarioC).state.snake.length = 4 ∧
      (gameStep 19 true (constRng 3) scenarioC).state.direction = ⟨1, 0⟩ ∧
      (gameStep 19 true (constRng 3) scenarioC).state.nextDirection = ⟨1, 0⟩ ∧
      (gameStep 19 true (constRng 3) scenarioC).state.score = 10 ∧
      (gameStep 19 true (constRng 3) scenarioC).state.food = some ⟨5, 5⟩ ∧
      (gameStep 19 true (constRng 3) scenarioC).state.gameOver = false ∧
      (gameStep 19 true (constRng 3) scenarioC).outcome = Outcome.completed :=
  gameStep_plain_tick_moves 19 true (constRng 3) scenarioC ⟨0, 0, true⟩
    [⟨-1, 0, false⟩, ⟨-2, 0, false⟩, ⟨-3, 0, false⟩] rfl rfl (by decide) (by decide)
    (by decide) (by decide)

/-- With the new head within the bounds, a tick ends the game only on a hit on a snake cell of
index 0..length-2. -/
theorem gameStep_over_in_bounds (gridSize : Int) (scoreElement : Bool) (rng : Nat → Int)
    (s : GameState) (head : Segment) (rest : List Segment)
    (hsnake : s.snake = head :: rest) (halive : s.gameOver = false)
    (hx : |head.x + s.nextDirection.x| ≤ halfGrid gridSize)
    (hy : |head.y + s.nextDirection.y| ≤ halfGrid gridSize)
    (hover : (gameStep gridSize scoreElement rng s).state.gameOver = true) :
    hitsBody s.snake ⟨head.x + s.nextDirection.x, head.y + s.nextDirection.y⟩ := by
  rw [gameStep_alive gridSize scoreElement rng s head rest hsnake halive] at hover
  have hw := (wallCollision_eq_false_iff gridSize _ _).mpr ⟨hx, hy⟩
  by_cases hc : selfCollision s.snake (head.x + s.nextDirection.x)
      (head.y + s.nextDirection.y) = true
  · exact (selfCollision_eq_true_iff _ _ _).mp hc
  · exfalso
    have h5 := (spawnFood_fields gridSize rng
      { s with
        direction := s.nextDirection
        snake := ⟨head.x + s.nextDirection.x, head.y + s.nextDirection.y, true⟩ ::
          { head with isHead := false } :: rest
        score := s.score + 10 }).2.2.2.2
    simp only [hw, hc, Bool.false_eq_true, or_self, if_false] at hover
    split at hover
    · split at hover
      · rw [h5] at hover
        simp [halive] at hover
      · simp [halive] at hover
    · simp [halive] at hover

/-- C3: in an alive game with a non-empty snake, a new head with `|x|` or `|y|` above
`floor(gridSize/2)` makes `gameStep` set the game-over flag and leave snake, score and food as
they were; with both coordinates within the bound the game ends only through a hit on a snake
cell of index 0..length-2, so the wall check does not end it. -/
theorem gameStep_wall_collision (gridSize : Int) (scoreElement : Bool) (rng : Nat → Int)
    (s : GameState) (head : Segment) (rest : List Segment)
    (hsnake : s.snake = head :: rest) (halive : s.gameOver = false) :
    ((halfGrid gridSize < |head.x + s.nextDirection.x| ∨
        halfGrid gridSize < |head.y + s.nextDirection.y|) →
      (gameStep gridSize scoreElement rng s).state.gameOver = true ∧
        (gameStep gridSize scoreElement rng s).state.snake = s.snake ∧
        (gameStep gridSize scoreElement rng s).state.score = s.score ∧
        (gameStep gridSize scoreElement rng s).state.food = s.food ∧
        (gameStep gridSize scoreElement rng s).outcome = Outcome.completed) ∧
    ((|head.x + s.nextDirection.x| ≤ halfGrid gridSize ∧
        |head.y + s.nextDirection.y| ≤ halfGrid gridSize) →
      ((gameStep gridSize scoreElement rng s).state.gameOver = true →
        hitsBody s.snake ⟨head.x + s.nextDirection.x, head.y + s.nextDirection.y⟩)) := by
  constructor
  · intro hwall
    have hw := (wallCollision_eq_true_iff gridSize _ _).mpr hwall
    rw [gameStep_alive gridSize scoreElement rng s head rest hsnake halive]
    simp [hw]
  · intro hin hover
    exact gameStep_over_in_bounds gridSize scoreElement rng s head rest hsnake halive
      hin.1 hin.2 hover

/-- Witness of C3 (scenario B): head (9,0), gridSize 19, direction (1,0): game over, with
snake, score and food untouched. -/
theorem gameStep_wall_collision_witness :
    (gameStep 19 true (constRng 3) scenarioB).state.gameOver = true ∧
      (gameStep 19 true (constRng 3) scenarioB).state.snake = scenarioB.snake ∧
      (gameStep 19 true (constRng 3) scenarioB).state.score = scenarioB.score ∧
      (gameStep 19 true (constRng 3) scenarioB).state.food = scenarioB.food ∧
      (gameStep 19 true (constRng 3) scenarioB).outcome = Outcome.completed :=
  (gameStep_wall_collision 19 true (constRng 3) scenarioB ⟨9, 0, true⟩
    [⟨8, 0, false⟩, ⟨7, 0, false⟩] rfl rfl).1 (Or.inl (by decide))

/-- C4: in an alive game with a non-empty snake and the new head within the bounds,
`gameStep` sets the game-over flag exactly when the new head is a snake cell of index
0..length-2, and then leaves snake, score and food as they were; the last cell is not checked:
when the new head is the tail cell, no cell of index 0..length-2 and not the food cell, the
game goes on and the snake moves into the tail cell. -/
theorem gameStep_self_collision_excludes_tail (gridSize : Int) (scoreElement : Bool)
    (rng : Nat → Int) (s : GameState) (head : Segment) (rest : List Segment)
    (hsnake : s.snake = head :: rest) (halive : s.gameOver = false)
    (hx : |head.x + s.nextDirection.x| ≤ halfGrid gridSize)
    (hy : |head.y + s.nextDirection.y| ≤ halfGrid gridSize) :
    ((gameStep gridSize scoreElement rng s).state.gameOver = true ↔
        hitsBody s.snake ⟨head.x + s.nextDirection.x, head.y + s.nextDirection.y⟩) ∧
    (hitsBody s.snake ⟨head.x + s.nextDirection.x, head.y + s.nextDirection.y⟩ →
      (gameStep gridSize scoreElement rng s).state.snake = s.snake ∧
        (gameStep gridSize scoreElement rng s).state.score = s.score ∧
        (gameStep gridSize scoreElement rng s).state.food = s.food) ∧
    ((cells s.snake).getLast? =
          some ⟨head.x + s.nextDirection.x, head.y + s.nextDirection.y⟩ →
      ¬ hitsBody s.snake ⟨head.x + s.nextDirection.x, head.y + s.nextDirection.y⟩ →
      s.food ≠ some ⟨head.x + s.nextDirection.x, head.y + s.nextDirection.y⟩ →
      (gameStep gridSize scoreElement rng s).state.gameOver = false ∧
        cells (gameStep gridSize scoreElement rng s).state.snake =
          ⟨head.x + s.nextDirection.x, head.y + s.nextDirection.y⟩ ::
            (cells s.snake).dropLast) := by
  have hw := (wallCollision_eq_false_iff gridSize _ _).mpr ⟨hx, hy⟩
  have hhit : hitsBody s.snake ⟨head.x + s.nextDirection.x, head.y + s.nextDirection.y⟩ →
      gameStep gridSize scoreElement rng s =
        ⟨{ s with direction := s.nextDirection, gameOver := true }, Outcome.completed⟩ := by
    intro hb
    have hc := (selfCollision_eq_true_iff _ _ _).mpr hb
    rw [gameStep_alive gridSize scoreElement rng s head rest hsnake halive]
    simp [hc]
  refine ⟨⟨?_, ?_⟩, ?_, ?_⟩
  · exact gameStep_over_in_bounds gridSize scoreElement rng s head rest hsnake halive hx hy
  · intro hb
    rw [hhit hb]
  · intro hb
    rw [hhit hb]
    exact ⟨rfl, rfl, rfl⟩
  · intro _ hbody hfood
    have hc : selfCollision s.snake (head.x + s.nextDirection.x)
        (head.y + s.nextDirection.y) = false := by
      rw [← Bool.not_eq_true, selfCollision_eq_true_iff]; exact hbody
    have hf : foodAt s.food (head.x + s.nextDirection.x)
        (head.y + s.nextDirection.y) = false := by
      rw [← Bool.not_eq_true, foodAt_eq_true_iff]; exact hfood
    rw [gameStep_alive gridSize scoreElement rng s head rest hsnake halive]
    simp only [hw, hc, hf, Bool.false_eq_true, or_self, if_false]
    refine ⟨halive, ?_⟩
    rw [hsnake, List.dropLast_cons₂, ← cells_dropLast]
    cases rest <;> simp [cells, Segment.cell]

/-- Witness of C4: the coiled snake [(0,0),(0,1),(1,1),(1,0)] steps right into its tail cell
(1,0) with the food elsewhere: no game over, the snake is [(1,0),(0,0),(0,1),(1,1)]. -/
theorem gameStep_self_collision_excludes_tail_witness :
    (gameStep 19 true (constRng 3) (coiled (some ⟨5, 5⟩))).state.gameOver = false ∧
      cells (gameStep 19 true (constRng 3) (coiled (some ⟨5, 5⟩))).state.snake =
        [⟨1, 0⟩, ⟨0, 0⟩, ⟨0, 1⟩, ⟨1, 1⟩] :=
  (gameStep_self_collision_excludes_tail 19 true (constRng 3) (coiled (some ⟨5, 5⟩))
    ⟨0, 0, true⟩ [⟨0, 1, false⟩, ⟨1, 1, false⟩, ⟨1, 0, false⟩] rfl rfl (by decide)
    (by decide)).2.2 (by decide) (by decide) (by decide)

/-- C8: once the game is over `gameStep` returns the state as it is, every field equal, and
so does any number of repeated ticks, whatever the random samples. -/
theorem gameStep_gameOver_absorbing (gridSize : Int) (scoreElement : Bool) (s : GameState)
    (hover : s.gameOver = true) :
    (∀ rng : Nat → Int, gameStep gridSize scoreElement rng s = ⟨s, Outcome.completed⟩) ∧
      ∀ rngs : List (Nat → Int), gameSteps gridSize scoreElement rngs s = s := by
  have hstep : ∀ rng : Nat → Int,
      gameStep gridSize scoreElement rng s = ⟨s, Outcome.completed⟩ := by
    intro rng
    simp [gameStep, hover]
  refine ⟨hstep, ?_⟩
  intro rngs
  induction rngs with
  | nil => rfl
  | cons rng tl ih =>
    simp only [gameSteps, List.foldl_cons, hstep rng]
    exact ih

/-- Witness of C8: scenario B after its wall collision stays as it is under one tick and
under any run of ticks. -/
theorem gameStep_gameOver_absorbing_witness :
    (∀ rng : Nat → Int, gameStep 19 true rng scenarioOver = ⟨scenarioOver, Outcome.completed⟩) ∧
      ∀ rngs : List (Nat → Int), gameSteps 19 true rngs scenarioOver = scenarioOver :=
  gameStep_gameOver_absorbing 19 true scenarioOver rfl

/-! ## Keyboard input -/

/-- With a cardinal current direction the listener stores the direction of the key unless it
is the exact opposite of the current direction. -/
theorem keydownHandler_eq (key : String) (s : GameState) (hcard : isCardinal s.direction) :
    keydownHandler key s =
      match keyDirection key with
      | none => s
      | some dir =>
        if dir = s.direction.opposite then s else { s with nextDirection := dir } := by
  unfold keydownHandler keyDirection
  have hd : s.direction = ⟨s.direction.x, s.direction.y⟩ := rfl
  rcases hcard with h | h | h | h <;>
    · rw [hd, Dir.mk.injEq] at h
      obtain ⟨hx, hy⟩ := h
      split_ifs <;> simp_all [Dir.opposite]

theorem lastAccepted_cons (d : Dir) (key : String) (keys : List String) :
    lastAccepted d (key :: keys) =
      match keyDirection key with
      | none => lastAccepted d keys
      | some dir =>
        if dir = d.opposite then lastAccepted d keys
        else some ((lastAccepted d keys).getD dir) := by
  unfold lastAccepted
  cases hk : keyDirection key with
  | none => simp [List.filterMap_cons, hk]
  | some dir =>
    by_cases ho : dir = d.opposite
    · simp [List.filterMap_cons, hk, ho]
    · simp [List.filterMap_cons, hk, ho, List.filter_cons, List.getLast?_cons]

/-- C6: with a cardinal current direction `d`, a key that maps to the exact opposite `-d`
(ArrowUp/w to (0,-1), ArrowDown/s to (0,1), ArrowLeft/a to (-1,0), ArrowRight/d to (1,0))
leaves the pending direction, and the whole state, as it was. -/
theorem keydown_reversal_guard (s : GameState) (key : String) (dir : Dir)
    (hcard : isCardinal s.direction) (hkey : keyDirection key = some dir)
    (hopp : dir = s.direction.opposite) :
    (keydownHandler key s).nextDirection = s.nextDirection ∧ keydownHandler key s = s := by
  have hsame : keydownHandler key s = s := by
    rw [keydownHandler_eq key s hcard, hkey]
    simp [hopp]
  exact ⟨by rw [hsame], hsame⟩

/-- Witness of C6 (scenario C): snake [(0,0),(-1,0),(-2,0),(-3,0)], direction (1,0): the key
ArrowLeft is rejected and the next tick moves the head to (1,0), not (-1,0). -/
theorem keydown_reversal_guard_witness :
    ((keydownHandler "ArrowLeft" scenarioC).nextDirection = scenarioC.nextDirection ∧
        keydownHandler "ArrowLeft" scenarioC = scenarioC) ∧
      cells (gameStep 19 true (constRng 3) (keydownHandler "ArrowLeft" scenarioC)).state.snake =
        [⟨1, 0⟩, ⟨0, 0⟩, ⟨-1, 0⟩, ⟨-2, 0⟩] :=
  ⟨keydown_reversal_guard scenarioC "ArrowLeft" ⟨-1, 0⟩ (Or.inl rfl) (by decide) (by decide),
    by decide⟩

/-- C7: with a cardinal current direction `d`, after any finite sequence of key events with
no tick in between the pending direction is the direction of the last event of the sequence
that maps to a direction other than `-d` (the former pending direction when there is none),
and snake, current direction, food, score and game-over flag are as before. -/
theorem keydownSeq_last_wins (keys : List String) (s : GameState)
    (hcard : isCardinal s.direction) :
    (keydownSeq keys s).nextDirection = (lastAccepted s.direction keys).getD s.nextDirection ∧
      (keydownSeq keys s).snake = s.snake ∧
      (keydownSeq keys s).direction = s.direction ∧
      (keydownSeq keys s).food = s.food ∧
      (keydownSeq keys s).score = s.score ∧
      (keydownSeq keys s).gameOver = s.gameOver := by
  have hall : ∀ (ks : List String) (st : GameState), isCardinal st.direction →
      keydownSeq ks st =
        { st with nextDirection := (lastAccepted st.direction ks).getD st.nextDirection } := by
    intro ks
    induction ks with
    | nil => intro st _; simp [keydownSeq, lastAccepted]
    | cons key tl ih =>
      intro st hst
      have hunfold : keydownSeq (key :: tl) st = keydownSeq tl (keydownHandler key st) := rfl
      rw [hunfold, keydownHandler_eq key st hst, lastAccepted_cons]
      cases hk : keyDirection key with
      | none => simpa using ih st hst
      | some dir =>
        by_cases ho : dir = st.direction.opposite
        · simpa [ho] using ih st hst
        · simp only [ho, if_false]
          rw [ih { st with nextDirection := dir } hst]
          simp
  rw [hall keys s hcard]
  exact ⟨rfl, rfl, rfl, rfl, rfl, rfl⟩

/-- Witness of C7: in scenario C (direction (1,0)) the keys w, ArrowLeft, s, x, a leave the
pending direction at (0,1), the direction of s: both left keys are reversals, x is no
direction key. -/
theorem keydownSeq_last_wins_witness :
    (keydownSeq ["w", "ArrowLeft", "s", "x", "a"] scenarioC).nextDirection = ⟨0, 1⟩ ∧
      (keydownSeq ["w", "ArrowLeft", "s", "x", "a"] scenarioC).snake = scenarioC.snake ∧
      (keydownSeq ["w", "ArrowLeft", "s", "x", "a"] scenarioC).direction =
        scenarioC.direction ∧
      (keydownSeq ["w", "ArrowLeft", "s", "x", "a"] scenarioC).food = scenarioC.food ∧
      (keydownSeq ["w", "ArrowLeft", "s", "x", "a"] scenarioC).score = scenarioC.score ∧
      (keydownSeq ["w", "ArrowLeft", "s", "x", "a"] scenarioC).gameOver =
        scenarioC.gameOver :=
  keydownSeq_last_wins ["w", "ArrowLeft", "s", "x", "a"] scenarioC (Or.inl rfl)

/-! ## spawnFood -/

theorem occupied_eq_true_iff (snake : List Segment) (c : Cell) :
    occupied snake c.x c.y = true ↔ c ∈ cells snake :=
  any_eq_true_iff_cell_mem snake c.x c.y

/-- The loop stops at the first free sampled cell, having counted it. -/
theorem sampleLoop_found (gridSize : Int) (snake : List Segment) (rng : Nat → Int) (k : Nat) :
    ∀ remaining attempts : Nat, k < remaining →
      (∀ j, j < k → sampledCell gridSize rng (attempts + j) ∈ cells snake) →
      sampledCell gridSize rng (attempts + k) ∉ cells snake →
      sampleLoop gridSize snake rng remaining attempts =
        (some (sampledCell gridSize rng (attempts + k)), attempts + k + 1) := by
  induction k with
  | zero =>
    intro remaining attempts hrem _ hfree
    cases remaining with
    | zero => omega
    | succ r =>
      have hocc : occupied snake (sampledCell gridSize rng attempts).x
          (sampledCell gridSize rng attempts).y = false := by
        rw [← Bool.not_eq_true, occupied_eq_true_iff]; simpa using hfree
      simp [sampleLoop, hocc]
  | succ k ih =>
    intro remaining attempts hrem hfirst hfree
    cases remaining with
    | zero => omega
    | succ r =>
      have hocc : occupied snake (sampledCell gridSize rng attempts).x
          (sampledCell gridSize rng attempts).y = true := by
        rw [occupied_eq_true_iff]; simpa using hfirst 0 (by omega)
      have hnext := ih r (attempts + 1) (by omega)
        (fun j hj => by
          have h := hfirst (j + 1) (by omega)
          rwa [show attempts + (j + 1) = attempts + 1 + j by omega] at h)
        (by rwa [show attempts + (k + 1) = attempts + 1 + k by omega] at hfree)
      simp only [sampleLoop, hocc, Bool.not_true, Bool.false_eq_true, if_false]
      rw [hnext, show attempts + 1 + k = attempts + (k + 1) by omega]

/-- The loop gives up after `remaining` rounds when every sampled cell is occupied. -/
theorem sampleLoop_exhausted (gridSize : Int) (snake : List Segment) (rng : Nat → Int) :
    ∀ remaining attempts : Nat,
      (∀ j, j < remaining → sampledCell gridSize rng (attempts + j) ∈ cells snake) →
      sampleLoop gridSize snake rng remaining attempts = (none, attempts + remaining) := by
  intro remaining
  induction remaining with
  | zero => intro attempts _; rfl
  | succ r ih =>
    intro attempts hall
    have hocc : occupied snake (sampledCell gridSize rng attempts).x
        (sampledCell gridSize rng attempts).y = true := by
      rw [occupied_eq_true_iff]; simpa using hall 0 (by omega)
    have hnext := ih (attempts + 1) (fun j hj => by
      have h := hall (j + 1) (by omega)
      rwa [show attempts + (j + 1) = attempts + 1 + j by omega] at h)
    simp only [sampleLoop, hocc, Bool.not_true, Bool.false_eq_true, if_false]
    rw [hnext, show attempts + 1 + r = attempts + (r + 1) by omega]

/-- The loop never counts past `attempts + remaining`. -/
theorem sampleLoop_attempts_le (gridSize : Int) (snake : List Segment) (rng : Nat → Int) :
    ∀ remaining attempts : Nat,
      (sampleLoop gridSize snake rng remaining attempts).2 ≤ attempts + remaining := by
  intro remaining
  induction remaining with
  | zero => intro attempts; simp [sampleLoop]
  | succ r ih =>
    intro attempts
    simp only [sampleLoop]
    split
    · simp
    · have h := ih (attempts + 1)
      omega

/-- A sample in `[0, gridSize)` shifted by `-halfGrid` is a cell within the bounds. -/
theorem sampledCell_inBounds (gridSize : Int) (rng : Nat → Int) (hrng : ValidRng gridSize rng)
    (k : Nat) : inBounds gridSize (sampledCell gridSize rng k) := by
  have h1 := hrng (2 * k)
  have h2 := hrng (2 * k + 1)
  simp only [inBounds, sampledCell, halfGrid]
  omega

/-- C9: for every snake, every gridSize of at least 1 and every stream of samples in
`[0, gridSize)`, when the `k`-th sampled cell (`k < 100`) is the first that is no snake cell,
`spawnFood` sets the food to exactly that cell; the food is then on no snake cell and within
`[-floor(gridSize/2), floor(gridSize/2)]` on both axes; `k + 1` cells were sampled, and never
more than 100. -/
theorem spawnFood_places_food (gridSize : Int) (rng : Nat → Int) (s : GameState) (k : Nat)
    (_hgrid : 1 ≤ gridSize) (hrng : ValidRng gridSize rng) (hk : k < 100)
    (hfree : sampledCell gridSize rng k ∉ cells s.snake)
    (hfirst : ∀ j, j < k → sampledCell gridSize rng j ∈ cells s.snake) :
    (spawnFood gridSize rng s).food = some (sampledCell gridSize rng k) ∧
      sampledCell gridSize rng k ∉ cells (spawnFood gridSize rng s).snake ∧
      inBounds gridSize (sampledCell gridSize rng k) ∧
      spawnFoodAttempts gridSize rng s = k + 1 ∧
      spawnFoodAttempts gridSize rng s ≤ 100 := by
  have hloop := sampleLoop_found gridSize s.snake rng k maxAttempts 0 hk
    (fun j hj => by simpa using hfirst j hj) (by simpa using hfree)
  simp only [Nat.zero_add] at hloop
  have hsnake := (spawnFood_fields gridSize rng s).1
  refine ⟨?_, ?_, sampledCell_inBounds gridSize rng hrng k, ?_, ?_⟩
  · simp [spawnFood, hloop]
  · rw [hsnake]; exact hfree
  · simp [spawnFoodAttempts, hloop]
  · have h := sampleLoop_attempts_le gridSize s.snake rng maxAttempts 0
    simpa [spawnFoodAttempts, maxAttempts] using h

/-- Witness of C9: on a grid of size 19 with the snake of scenario A, the first sampled cell
(0,0) is on the snake and the second, (-6,-6), is free: the food is (-6,-6) after two
samples. -/
theorem spawnFood_places_food_witness :
    (spawnFood 19 retryRng scenarioA).food = some ⟨-6, -6⟩ ∧
      (⟨-6, -6⟩ : Cell) ∉ cells (spawnFood 19 retryRng scenarioA).snake ∧
      inBounds 19 ⟨-6, -6⟩ ∧
      spawnFoodAttempts 19 retryRng scenarioA = 1 + 1 ∧
      spawnFoodAttempts 19 retryRng scenarioA ≤ 100 :=
  spawnFood_places_food 19 retryRng scenarioA 1 (by decide)
    (fun k => by unfold retryRng; split <;> decide) (by decide) (by decide)
    (fun j hj => by
      have hj0 : j = 0 := by omega
      subst hj0
      decide)

/-- When all 100 sampled cells are snake cells `spawnFood` returns early and leaves the state,
its food included, as it was. -/
theorem spawnFood_exhausted (gridSize : Int) (rng : Nat → Int) (s : GameState)
    (hall : ∀ k, k < 100 → sampledCell gridSize rng k ∈ cells s.snake) :
    spawnFood gridSize rng s = s := by
  have hloop := sampleLoop_exhausted gridSize s.snake rng maxAttempts 0
    (fun j hj => by simpa using hall j hj)
  simp [spawnFood, hloop]

/-- C10, the code at the failing input: in scenario A on a grid of size 19 the head eats the
food at (1,0) and `gameStep` calls `spawnFood`; every draw gives 9, so each of the 100
sampled cells is (0,0), a snake cell. After the call the food is not unset: it is still the
eaten food at (1,0), the cell of the new head. -/
theorem spawnFood_exhaustion_keeps_eaten_food :
    gameStep 19 true (constRng 9) scenarioA =
        ⟨spawnFood 19 (constRng 9) scenarioAEaten, Outcome.completed⟩ ∧
      (∀ k, k < 100 → sampledCell 19 (constRng 9) k ∈ cells scenarioAEaten.snake) ∧
      (spawnFood 19 (constRng 9) scenarioAEaten).food = some ⟨1, 0⟩ ∧
      (gameStep 19 true (constRng 9) scenarioA).state.food = some ⟨1, 0⟩ ∧
      (cells (gameStep 19 true (constRng 9) scenarioA).state.snake).head? = some ⟨1, 0⟩ := by
  have hall : ∀ k, k < 100 → sampledCell 19 (constRng 9) k ∈ cells scenarioAEaten.snake := by
    intro k _
    have hc : sampledCell 19 (constRng 9) k = ⟨0, 0⟩ := by
      simp [sampledCell, constRng, halfGrid]
    rw [hc]
    decide
  have hstep : gameStep 19 true (constRng 9) scenarioA =
      ⟨spawnFood 19 (constRng 9) scenarioAEaten, Outcome.completed⟩ := by
    rw [gameStep_alive 19 true (constRng 9) scenarioA ⟨0, 0, true⟩
      [⟨-1, 0, false⟩, ⟨-2, 0, false⟩] rfl rfl]
    rfl
  have hsame := spawnFood_exhausted 19 (constRng 9) scenarioAEaten hall
  refine ⟨hstep, hall, ?_, ?_, ?_⟩
  · rw [hsame]; rfl
  · rw [hstep]
    show (spawnFood 19 (constRng 9) scenarioAEaten).food = some ⟨1, 0⟩
    rw [hsame]; rfl
  · rw [hstep]
    show (cells (spawnFood 19 (constRng 9) scenarioAEaten).snake).head? = some ⟨1, 0⟩
    rw [hsame]; rfl

/-! ## Reachable states: shape of a start and of a tick -/

/-- The state `resetGameState(); createInitialSnake();` leaves, whatever came before. -/
theorem createInitialSnake_resetGameState (s : GameState) :
    createInitialSnake (resetGameState s) =
      { snake := [⟨0, 0, true⟩, ⟨-1, 0, false⟩, ⟨-2, 0, false⟩], direction := ⟨1, 0⟩,
        nextDirection := ⟨1, 0⟩, food := none, score := 0, gameOver := false } := rfl

/-- A cell accepted by the sampling loop is one of the sampled cells and no snake cell. -/
theorem sampleLoop_some (gridSize : Int) (snake : List Segment) (rng : Nat → Int) :
    ∀ (remaining attempts : Nat) (c : Cell),
      (sampleLoop gridSize snake rng remaining attempts).1 = some c →
      ∃ k, c = sampledCell gridSize rng k ∧ c ∉ cells snake := by
  intro remaining
  induction remaining with
  | zero => intro attempts c h; simp [sampleLoop] at h
  | succ r ih =>
    intro attempts c h
    simp only [sampleLoop] at h
    split at h
    · rename_i hvalid
      simp only [Option.some.injEq] at h
      subst h
      refine ⟨attempts, rfl, ?_⟩
      rw [← occupied_eq_true_iff]
      simpa using hvalid
    · exact ih (attempts + 1) c h

/-- What `spawnFood` does to the state: nothing, or it sets the food to a sampled cell that is
no snake cell. -/
theorem spawnFood_cases (gridSize : Int) (rng : Nat → Int) (s : GameState) :
    spawnFood gridSize rng s = s ∨
      ∃ k, sampledCell gridSize rng k ∉ cells s.snake ∧
        spawnFood gridSize rng s = { s with food := some (sampledCell gridSize rng k) } := by
  unfold spawnFood
  cases h : (sampleLoop gridSize s.snake rng maxAttempts 0).1 with
  | none => exact Or.inl rfl
  | some c =>
    obtain ⟨k, hk, hfree⟩ := sampleLoop_some gridSize s.snake rng maxAttempts 0 c h
    subst hk
    exact Or.inr ⟨k, hfree, rfl⟩

/-- The state after `startGame`: the initial snake heading right, score 0, game alive, and the
food unset or on a sampled cell off the snake. -/
theorem startGame_cases (gridSize : Int) (rng : Nat → Int) (s : GameState) :
    ∃ food : Option Cell,
      (food = none ∨ ∃ k, food = some (sampledCell gridSize rng k) ∧
        sampledCell gridSize rng k ∉
          cells [(⟨0, 0, true⟩ : Segment), ⟨-1, 0, false⟩, ⟨-2, 0, false⟩]) ∧
      startGame gridSize rng s =
        { snake := [⟨0, 0, true⟩, ⟨-1, 0, false⟩, ⟨-2, 0, false⟩], direction := ⟨1, 0⟩,
          nextDirection := ⟨1, 0⟩, food := food, score := 0, gameOver := false } := by
  unfold startGame
  rw [createInitialSnake_resetGameState]
  rcases spawnFood_cases gridSize rng
    { snake := [⟨0, 0, true⟩, ⟨-1, 0, false⟩, ⟨-2, 0, false⟩], direction := ⟨1, 0⟩,
      nextDirection := ⟨1, 0⟩, food := none, score := 0, gameOver := false } with h | ⟨k, hk, h⟩
  · exact ⟨none, Or.inl rfl, h⟩
  · exact ⟨_, Or.inr ⟨k, rfl, hk⟩, h⟩

/-- The state after a tick, by the branch `gameStep` takes: no-op when the game is over; only
the direction committed on an empty snake; game over on a collision; growth on the food cell,
the food then left as it was or moved to a sampled cell off the grown snake; a plain move
otherwise. -/
theorem gameStep_state_cases (gridSize : Int) (scoreElement : Bool) (rng : Nat → Int)
    (s : GameState) :
    (s.gameOver = true ∧ (gameStep gridSize scoreElement rng s).state = s) ∨
    (s.gameOver = false ∧ s.snake = [] ∧
      (gameStep gridSize scoreElement rng s).state = { s with direction := s.nextDirection }) ∨
    ∃ head rest, s.snake = head :: rest ∧ s.gameOver = false ∧
      ((gameStep gridSize scoreElement rng s).state =
          { s with direction := s.nextDirection, gameOver := true } ∨
       (|head.x + s.nextDirection.x| ≤ halfGrid gridSize ∧
          |head.y + s.nextDirection.y| ≤ halfGrid gridSize ∧
          ¬ hitsBody s.snake ⟨head.x + s.nextDirection.x, head.y + s.nextDirection.y⟩ ∧
          s.food = some ⟨head.x + s.nextDirection.x, head.y + s.nextDirection.y⟩ ∧
          ∃ food : Option Cell,
            (food = s.food ∨ ∃ k, food = some (sampledCell gridSize rng k) ∧
              sampledCell gridSize rng k ∉
                cells (⟨head.x + s.nextDirection.x, head.y + s.nextDirection.y, true⟩ ::
                  { head with isHead := false } :: rest)) ∧
            (gameStep gridSize scoreElement rng s).state =
              { s with
                direction := s.nextDirection
                snake := ⟨head.x + s.nextDirection.x, head.y + s.nextDirection.y, true⟩ ::
                  { head with isHead := false } :: rest
                score := s.score + 10
                food := food }) ∨
       (|head.x + s.nextDirection.x| ≤ halfGrid gridSize ∧
          |head.y + s.nextDirection.y| ≤ halfGrid gridSize ∧
          ¬ hitsBody s.snake ⟨head.x + s.nextDirection.x, head.y + s.nextDirection.y⟩ ∧
          s.food ≠ some ⟨head.x + s.nextDirection.x, head.y + s.nextDirection.y⟩ ∧
          (gameStep gridSize scoreElement rng s).state =
            { s with
              direction := s.nextDirection
              snake := (⟨head.x + s.nextDirection.x, head.y + s.nextDirection.y, true⟩ ::
                { head with isHead := false } :: rest).dropLast })) := by
  rcases Bool.eq_false_or_eq_true s.gameOver with hover | hover
  · exact Or.inl ⟨hover, by simp [gameStep, hover]⟩
  · right
    by_cases hnil : s.snake = []
    · exact Or.inl ⟨hover, hnil, by simp [gameStep, hover, hnil]⟩
    · right
      obtain ⟨head, rest, hsnake⟩ := List.exists_cons_of_ne_nil hnil
      refine ⟨head, rest, hsnake, hover, ?_⟩
      rw [gameStep_alive gridSize scoreElement rng s head rest hsnake hover]
      by_cases hcol : wallCollision gridSize (head.x + s.nextDirection.x)
          (head.y + s.nextDirection.y) = true ∨
          selfCollision s.snake (head.x + s.nextDirection.x)
            (head.y + s.nextDirection.y) = true
      · left
        rw [if_pos hcol]
      · right
        rw [if_neg hcol]
        have hw : wallCollision gridSize (head.x + s.nextDirection.x)
            (head.y + s.nextDirection.y) = false := by
          rw [← Bool.not_eq_true]; exact fun h => hcol (Or.inl h)
        have hb : ¬ hitsBody s.snake
            ⟨head.x + s.nextDirection.x, head.y + s.nextDirection.y⟩ := by
          rw [← selfCollision_eq_true_iff]; exact fun h => hcol (Or.inr h)
        obtain ⟨hx, hy⟩ := (wallCollision_eq_false_iff gridSize _ _).mp hw
        by_cases hf : foodAt s.food (head.x + s.nextDirection.x)
            (head.y + s.nextDirection.y) = true
        · left
          rw [if_pos hf]
          have hfood := (foodAt_eq_true_iff _ _ _).mp hf
          refine ⟨hx, hy, hb, hfood, ?_⟩
          cases scoreElement with
          | false => exact ⟨s.food, Or.inl rfl, by simp⟩
          | true =>
            rcases spawnFood_cases gridSize rng
              { s with
                direction := s.nextDirection
                snake := ⟨head.x + s.nextDirection.x, head.y + s.nextDirection.y, true⟩ ::
                  { head with isHead := false } :: rest
                score := s.score + 10 } with h | ⟨k, hk, h⟩
            · exact ⟨s.food, Or.inl rfl, by simp [h]⟩
            · exact ⟨_, Or.inr ⟨k, rfl, hk⟩, by simp [h]⟩
        · right
          rw [if_neg hf]
          exact ⟨hx, hy, hb, fun h => hf ((foodAt_eq_true_iff _ _ _).mpr h), rfl⟩

/-- The listener leaves every field but the pending direction as it was. -/
theorem keydownHandler_fields (k : String) (s : GameState) :
    (keydownHandler k s).snake = s.snake ∧
      (keydownHandler k s).direction = s.direction ∧
      (keydownHandler k s).food = s.food ∧
      (keydownHandler k s).score = s.score ∧
      (keydownHandler k s).gameOver = s.gameOver := by
  unfold keydownHandler
  split_ifs <;> exact ⟨rfl, rfl, rfl, rfl, rfl⟩

theorem keyDirection_cardinal (k : String) (dir : Dir) (h : keyDirection k = some dir) :
    isCardinal dir := by
  unfold keyDirection at h
  unfold isCardinal
  split_ifs at h <;> simp_all

theorem isCardinal_ne_opposite (d : Dir) (h : isCardinal d) : d ≠ d.opposite := by
  rcases h with h | h | h | h <;> rw [h] <;> decide

theorem isCardinal_abs (d : Dir) (h : isCardinal d) : |d.x| + |d.y| = 1 := by
  rcases h with h | h | h | h <;> rw [h] <;> decide

/-- A tick on a non-empty snake with the score element present returns normally. -/
theorem gameStep_outcome_completed (gridSize : Int) (rng : Nat → Int) (s : GameState)
    (hsnake : s.snake ≠ []) :
    (gameStep gridSize true rng s).outcome = Outcome.completed := by
  rcases Bool.eq_false_or_eq_true s.gameOver with hover | hover
  · simp [gameStep, hover]
  · obtain ⟨head, rest, hcons⟩ := List.exists_cons_of_ne_nil hsnake
    rw [gameStep_alive gridSize true rng s head rest hcons hover]
    split_ifs <;> first | rfl | contradiction

theorem validRng_constRng (gridSize v : Int) (h0 : 0 ≤ v) (hlt : v < gridSize) :
    ValidRng gridSize (constRng v) :=
  fun _ => ⟨h0, hlt⟩

theorem validRng_foodAheadRng : ValidRng 19 foodAheadRng := by
  intro k
  unfold foodAheadRng
  split <;> decide

/-! ## Contiguity of a cell list -/

theorem contiguous_cons (a b : Cell) (cs : List Cell) (hstep : |a.x - b.x| + |a.y - b.y| = 1)
    (h : contiguous (b :: cs)) : contiguous (a :: b :: cs) := by
  intro i u v hu hv
  cases i with
  | zero =>
    simp only [List.getElem?_cons_zero, Option.some.injEq, zero_add,
      List.getElem?_cons_succ] at hu hv
    subst hu; subst hv
    exact hstep
  | succ j =>
    rw [List.getElem?_cons_succ] at hu hv
    exact h j u v hu hv

theorem getElem?_dropLast_some {α : Type} (l : List α) (i : Nat) (a : α)
    (h : l.dropLast[i]? = some a) : l[i]? = some a := by
  rw [List.dropLast_eq_take, List.getElem?_take] at h
  split_ifs at h
  · exact h

theorem contiguous_dropLast (cs : List Cell) (h : contiguous cs) : contiguous cs.dropLast :=
  fun i a b ha hb =>
    h i a b (getElem?_dropLast_some cs i a ha) (getElem?_dropLast_some cs (i + 1) b hb)

/-! ## Invariants of the reachable states -/

/-- Both directions of a reachable state are unit vectors and the pending one is not the
opposite of the current one. -/
theorem reachable_directions (gridSize : Int) (scoreElement : Bool) (s : GameState)
    (h : Reachable gridSize scoreElement s) :
    isCardinal s.direction ∧ isCardinal s.nextDirection ∧
      s.nextDirection ≠ s.direction.opposite := by
  have hstart : ∀ (rng : Nat → Int) (s0 : GameState),
      isCardinal (startGame gridSize rng s0).direction ∧
        isCardinal (startGame gridSize rng s0).nextDirection ∧
        (startGame gridSize rng s0).nextDirection ≠
          (startGame gridSize rng s0).direction.opposite := by
    intro rng s0
    obtain ⟨food, -, heq⟩ := startGame_cases gridSize rng s0
    rw [heq]
    exact ⟨Or.inl rfl, Or.inl rfl, by simp [Dir.opposite]⟩
  induction h with
  | init s0 rng _ => exact hstart rng s0
  | restart s rng _ _ _ _ => exact hstart rng s
  | key s k _ ih =>
    obtain ⟨hd, hn, hne⟩ := ih
    rw [keydownHandler_eq k s hd]
    cases hk : keyDirection k with
    | none => exact ⟨hd, hn, hne⟩
    | some dir =>
      by_cases ho : dir = s.direction.opposite
      · simpa [ho] using ⟨hd, hn, hne⟩
      · simp only [ho, if_false]
        exact ⟨hd, keyDirection_cardinal k dir hk, ho⟩
  | tick s rng _ _ ih =>
    obtain ⟨hd, hn, hne⟩ := ih
    have hnn := isCardinal_ne_opposite s.nextDirection hn
    rcases gameStep_state_cases gridSize scoreElement rng s with
      ⟨-, heq⟩ | ⟨-, -, heq⟩ | ⟨head, rest, -, -, heq | ⟨-, -, -, -, food, -, heq⟩ |
        ⟨-, -, -, -, heq⟩⟩
    · rw [heq]; exact ⟨hd, hn, hne⟩
    · rw [heq]; exact ⟨hn, hn, hnn⟩
    · rw [heq]; exact ⟨hn, hn, hnn⟩
    · rw [heq]; exact ⟨hn, hn, hnn⟩
    · rw [heq]; exact ⟨hn, hn, hnn⟩

/-- While the game is alive the head of a reachable state is one step of the current
direction ahead of the second segment. -/
theorem reachable_neck (gridSize : Int) (scoreElement : Bool) (s : GameState)
    (h : Reachable gridSize scoreElement s) (halive : s.gameOver = false) :
    neckBehind s.snake s.direction := by
  have hstart : ∀ (rng : Nat → Int) (s0 : GameState),
      neckBehind (startGame gridSize rng s0).snake (startGame gridSize rng s0).direction := by
    intro rng s0
    obtain ⟨food, -, heq⟩ := startGame_cases gridSize rng s0
    rw [heq]
    exact ⟨⟨0, 0, true⟩, ⟨-1, 0, false⟩, [⟨-2, 0, false⟩], rfl, by simp, by simp⟩
  induction h with
  | init s0 rng _ => exact hstart rng s0
  | restart s rng _ _ _ _ => exact hstart rng s
  | key s k _ ih =>
    obtain ⟨h1, h2, -, -, h5⟩ := keydownHandler_fields k s
    rw [h1, h2]
    exact ih (by rw [← h5]; exact halive)
  | tick s rng _ _ ih =>
    rcases gameStep_state_cases gridSize scoreElement rng s with
      ⟨hover, heq⟩ | ⟨ha, hnil, heq⟩ | ⟨head, rest, hsnake, ha, heq | ⟨-, -, -, -, food, -, heq⟩ |
        ⟨-, -, -, -, heq⟩⟩
    · rw [heq] at halive
      rw [hover] at halive
      exact absurd halive (by decide)
    · obtain ⟨a, b, c, hs, -, -⟩ := ih ha
      rw [hnil] at hs
      exact absurd hs (by simp)
    · rw [heq] at halive
      exact absurd halive (by simp)
    · rw [heq]
      exact ⟨_, _, rest, rfl, by simp, by simp⟩
    · rw [heq]
      obtain ⟨a, b, c, hs, -, -⟩ := ih ha
      rw [hsnake] at hs
      obtain ⟨-, rfl⟩ := List.cons.inj hs
      exact ⟨⟨head.x + s.nextDirection.x, head.y + s.nextDirection.y, true⟩,
        { head with isHead := false }, (b :: c).dropLast, by simp [List.dropLast],
        by simp, by simp⟩

/-- C13: in every state reachable from the initial state by key events, ticks and restarts
the snake has at least 3 cells; so it is non-empty, the head lookup of `gameStep` is defined,
and with the score element present every tick returns normally. -/
theorem reachable_snake_length (gridSize : Int) (scoreElement : Bool) (s : GameState)
    (h : Reachable gridSize scoreElement s) :
    3 ≤ s.snake.length ∧ (∃ head rest, s.snake = head :: rest) ∧
      ∀ rng : Nat → Int, (gameStep gridSize true rng s).outcome = Outcome.completed := by
  have hlen : 3 ≤ s.snake.length := by
    induction h with
    | init s0 rng _ =>
      obtain ⟨food, -, heq⟩ := startGame_cases gridSize rng s0
      rw [heq]; simp
    | restart s rng _ _ _ _ =>
      obtain ⟨food, -, heq⟩ := startGame_cases gridSize rng s
      rw [heq]; simp
    | key s k _ ih =>
      rw [(keydownHandler_fields k s).1]; exact ih
    | tick s rng _ _ ih =>
      rcases gameStep_state_cases gridSize scoreElement rng s with
        ⟨-, heq⟩ | ⟨-, -, heq⟩ | ⟨head, rest, hsnake, -, heq | ⟨-, -, -, -, food, -, heq⟩ |
          ⟨-, -, -, -, heq⟩⟩
      · rw [heq]; exact ih
      · rw [heq]; exact ih
      · rw [heq]; exact ih
      · rw [heq]
        rw [hsnake] at ih
        simp only [List.length_cons] at ih ⊢
        omega
      · rw [heq]
        rw [hsnake] at ih
        simp only [List.length_dropLast, List.length_cons] at ih ⊢
        omega
  have hne : s.snake ≠ [] := by
    intro hnil
    rw [hnil] at hlen
    simp at hlen
  exact ⟨hlen, List.exists_cons_of_ne_nil hne,
    fun rng => gameStep_outcome_completed gridSize rng s hne⟩

/-- Witness of C13: the state after `init` on a grid of size 19, followed by the key w and a
tick, has a snake of at least 3 cells. -/
theorem reachable_snake_length_witness :
    3 ≤ (gameStep 19 true (constRng 3)
        (keydownHandler "w" (startGame 19 (constRng 3) scenarioOver))).state.snake.length ∧
      (∃ head rest, (gameStep 19 true (constRng 3)
        (keydownHandler "w" (startGame 19 (constRng 3) scenarioOver))).state.snake =
          head :: rest) ∧
      ∀ rng : Nat → Int, (gameStep 19 true rng (gameStep 19 true (constRng 3)
        (keydownHandler "w" (startGame 19 (constRng 3) scenarioOver))).state).outcome =
          Outcome.completed :=
  reachable_snake_length 19 true _
    (Reachable.tick _ (constRng 3) (validRng_constRng 19 3 (by decide) (by decide))
      (Reachable.key _ "w"
        (Reachable.init scenarioOver (constRng 3)
          (validRng_constRng 19 3 (by decide) (by decide)))))

/-- C14: from every prior state, `resetGameState` followed by `createInitialSnake` leaves a
snake of exactly `snakeStartLength = 3` segments, segment `i` on the cell `(-i, 0)`, that is
[(0,0),(-1,0),(-2,0)] with the head at the origin and only the first segment flagged `isHead`;
direction and pending direction are (1,0), the score is 0, the game is not over and the food
is unset. -/
theorem createInitialSnake_postcondition (s : GameState) :
    snakeStartLength = 3 ∧
      (createInitialSnake (resetGameState s)).snake.length = snakeStartLength ∧
      (∀ i : Nat, i < snakeStartLength →
        (cells (createInitialSnake (resetGameState s)).snake)[i]? = some ⟨-(i : Int), 0⟩) ∧
      cells (createInitialSnake (resetGameState s)).snake = [⟨0, 0⟩, ⟨-1, 0⟩, ⟨-2, 0⟩] ∧
      (createInitialSnake (resetGameState s)).snake.map Segment.isHead =
        [true, false, false] ∧
      (createInitialSnake (resetGameState s)).direction = ⟨1, 0⟩ ∧
      (createInitialSnake (resetGameState s)).nextDirection = ⟨1, 0⟩ ∧
      (createInitialSnake (resetGameState s)).score = 0 ∧
      (createInitialSnake (resetGameState s)).gameOver = false ∧
      (createInitialSnake (resetGameState s)).food = none := by
  rw [createInitialSnake_resetGameState]
  refine ⟨rfl, rfl, ?_, rfl, rfl, rfl, rfl, rfl, rfl, rfl⟩
  intro i hi
  have hi3 : i < 3 := hi
  interval_cases i <;> rfl

/-- C17: in every state reachable from the initial state by key events, ticks and restarts,
`snake[0]` has `isHead = true` and every segment of a later index has `isHead = false`. -/
theorem reachable_only_first_isHead (gridSize : Int) (scoreElement : Bool) (s : GameState)
    (h : Reachable gridSize scoreElement s) :
    (∃ head, s.snake[0]? = some head ∧ head.isHead = true) ∧
      ∀ (i : Nat) (seg : Segment), 0 < i → s.snake[i]? = some seg → seg.isHead = false := by
  have hflag : onlyFirstIsHead s.snake := by
    induction h with
    | init s0 rng _ =>
      obtain ⟨food, -, heq⟩ := startGame_cases gridSize rng s0
      rw [heq]
      exact ⟨⟨0, 0, true⟩, [⟨-1, 0, false⟩, ⟨-2, 0, false⟩], rfl, rfl, by simp⟩
    | restart s rng _ _ _ _ =>
      obtain ⟨food, -, heq⟩ := startGame_cases gridSize rng s
      rw [heq]
      exact ⟨⟨0, 0, true⟩, [⟨-1, 0, false⟩, ⟨-2, 0, false⟩], rfl, rfl, by simp⟩
    | key s k _ ih =>
      rw [(keydownHandler_fields k s).1]; exact ih
    | tick s rng _ _ ih =>
      rcases gameStep_state_cases gridSize scoreElement rng s with
        ⟨-, heq⟩ | ⟨-, -, heq⟩ | ⟨head, rest, hsnake, -, heq | ⟨-, -, -, -, food, -, heq⟩ |
          ⟨-, -, -, -, heq⟩⟩
      · rw [heq]; exact ih
      · rw [heq]; exact ih
      · rw [heq]; exact ih
      · rw [heq]
        obtain ⟨a, b, hs, -, hb⟩ := ih
        rw [hsnake] at hs
        obtain ⟨-, rfl⟩ := List.cons.inj hs
        refine ⟨_, _, rfl, rfl, ?_⟩
        intro seg hseg
        rcases List.mem_cons.mp hseg with hd | hr
        · rw [hd]
        · exact hb seg hr
      · rw [heq]
        obtain ⟨a, b, hs, -, hb⟩ := ih
        rw [hsnake] at hs
        obtain ⟨-, rfl⟩ := List.cons.inj hs
        refine ⟨⟨head.x + s.nextDirection.x, head.y + s.nextDirection.y, true⟩,
          (({ head with isHead := false } : Segment) :: rest).dropLast, by simp [List.dropLast],
          rfl, ?_⟩
        intro seg hseg
        rcases List.mem_cons.mp (List.dropLast_subset _ hseg) with hd | hr
        · rw [hd]
        · exact hb seg hr
  obtain ⟨head, rest, hs, hhead, hrest⟩ := hflag
  rw [hs]
  refine ⟨⟨head, by simp, hhead⟩, ?_⟩
  intro i seg hi hseg
  obtain ⟨j, rfl⟩ : ∃ j, i = j + 1 := ⟨i - 1, by omega⟩
  rw [List.getElem?_cons_succ] at hseg
  exact hrest seg (List.mem_iff_getElem?.mpr ⟨j, hseg⟩)

/-- Witness of C17: the state after `init` on a grid of size 19, the key w and a tick. -/
theorem reachable_only_first_isHead_witness :
    (∃ head, (gameStep 19 true (constRng 3)
        (keydownHandler "w" (startGame 19 (constRng 3) scenarioOver))).state.snake[0]? =
          some head ∧ head.isHead = true) ∧
      ∀ (i : Nat) (seg : Segment), 0 < i →
        (gameStep 19 true (constRng 3)
          (keydownHandler "w" (startGame 19 (constRng 3) scenarioOver))).state.snake[i]? =
            some seg → seg.isHead = false :=
  reachable_only_first_isHead 19 true _
    (Reachable.tick _ (constRng 3) (validRng_constRng 19 3 (by decide) (by decide))
      (Reachable.key _ "w"
        (Reachable.init scenarioOver (constRng 3)
          (validRng_constRng 19 3 (by decide) (by decide)))))

/-- C16: in every state reachable from the initial state by key events, ticks and restarts,
the current and the pending direction are each one of (1,0), (-1,0), (0,1), (0,-1) and the
pending one is not the opposite of the current one; hence the direction a tick commits is not
the opposite of the one committed before, and the new head a tick computes is not on
`snake[1]`. -/
theorem reachable_never_reverses (gridSize : Int) (scoreElement : Bool) (s : GameState)
    (h : Reachable gridSize scoreElement s) :
    isCardinal s.direction ∧ isCardinal s.nextDirection ∧
      s.nextDirection ≠ s.direction.opposite ∧
      (s.gameOver = false → ∀ rng : Nat → Int,
        (gameStep gridSize scoreElement rng s).state.direction = s.nextDirection ∧
          (gameStep gridSize scoreElement rng s).state.direction ≠ s.direction.opposite) ∧
      (s.gameOver = false → ∀ (head neck : Segment) (rest : List Segment),
        s.snake = head :: neck :: rest →
          (⟨head.x + s.nextDirection.x, head.y + s.nextDirection.y⟩ : Cell) ≠ neck.cell) := by
  obtain ⟨hd, hn, hne⟩ := reachable_directions gridSize scoreElement s h
  refine ⟨hd, hn, hne, ?_, ?_⟩
  · intro halive rng
    have hdir : (gameStep gridSize scoreElement rng s).state.direction = s.nextDirection := by
      rcases gameStep_state_cases gridSize scoreElement rng s with
        ⟨hover, -⟩ | ⟨-, -, heq⟩ | ⟨head, rest, -, -, heq | ⟨-, -, -, -, food, -, heq⟩ |
          ⟨-, -, -, -, heq⟩⟩
      · rw [hover] at halive
        exact absurd halive (by decide)
      · rw [heq]
      · rw [heq]
      · rw [heq]
      · rw [heq]
    exact ⟨hdir, by rw [hdir]; exact hne⟩
  · intro halive head neck rest hsnake hhit
    obtain ⟨a, b, c, hs, hx, hy⟩ := reachable_neck gridSize scoreElement s h halive
    rw [hsnake] at hs
    obtain ⟨rfl, hs2⟩ := List.cons.inj hs
    obtain ⟨rfl, -⟩ := List.cons.inj hs2
    simp only [Segment.cell, Cell.mk.injEq] at hhit
    apply hne
    have hd : s.nextDirection = ⟨s.nextDirection.x, s.nextDirection.y⟩ := rfl
    rw [hd, Dir.opposite, Dir.mk.injEq]
    constructor <;> omega

/-- Witness of C16: the state after `init` on a grid of size 19 and the key w. -/
theorem reachable_never_reverses_witness :
    isCardinal (keydownHandler "w" (startGame 19 (constRng 3) scenarioOver)).direction ∧
      isCardinal (keydownHandler "w" (startGame 19 (constRng 3) scenarioOver)).nextDirection ∧
      (keydownHandler "w" (startGame 19 (constRng 3) scenarioOver)).nextDirection ≠
        (keydownHandler "w" (startGame 19 (constRng 3) scenarioOver)).direction.opposite ∧
      ((keydownHandler "w" (startGame 19 (constRng 3) scenarioOver)).gameOver = false →
        ∀ rng : Nat → Int,
          (gameStep 19 true rng
              (keydownHandler "w" (startGame 19 (constRng 3) scenarioOver))).state.direction =
            (keydownHandler "w" (startGame 19 (constRng 3) scenarioOver)).nextDirection ∧
          (gameStep 19 true rng
              (keydownHandler "w" (startGame 19 (constRng 3) scenarioOver))).state.direction ≠
            (keydownHandler "w"
              (startGame 19 (constRng 3) scenarioOver)).direction.opposite) ∧
      ((keydownHandler "w" (startGame 19 (constRng 3) scenarioOver)).gameOver = false →
        ∀ (head neck : Segment) (rest : List Segment),
          (keydownHandler "w" (startGame 19 (constRng 3) scenarioOver)).snake =
            head :: neck :: rest →
          (⟨head.x + (keydownHandler "w"
              (startGame 19 (constRng 3) scenarioOver)).nextDirection.x,
            head.y + (keydownHandler "w"
              (startGame 19 (constRng 3) scenarioOver)).nextDirection.y⟩ : Cell) ≠
            neck.cell) :=
  reachable_never_reverses 19 true _
    (Reachable.key _ "w"
      (Reachable.init scenarioOver (constRng 3)
        (validRng_constRng 19 3 (by decide) (by decide))))

/-- C18: for every gridSize with `floor(gridSize/2) >= 2`, in every state reachable from the
initial state by key events, ticks and restarts, whatever the samples, every snake cell and the
food cell, when set, have both coordinates in `[-floor(gridSize/2), floor(gridSize/2)]`. -/
theorem reachable_in_bounds (gridSize : Int) (scoreElement : Bool) (s : GameState)
    (hgrid : 2 ≤ halfGrid gridSize) (h : Reachable gridSize scoreElement s) :
    (∀ c ∈ cells s.snake, inBounds gridSize c) ∧
      ∀ f : Cell, s.food = some f → inBounds gridSize f := by
  have hstart : ∀ (rng : Nat → Int) (s0 : GameState), ValidRng gridSize rng →
      (∀ c ∈ cells (startGame gridSize rng s0).snake, inBounds gridSize c) ∧
        ∀ f : Cell, (startGame gridSize rng s0).food = some f → inBounds gridSize f := by
    intro rng s0 hrng
    obtain ⟨food, hfood, heq⟩ := startGame_cases gridSize rng s0
    rw [heq]
    constructor
    · intro c hc
      simp only [cells, Segment.cell, List.map_cons, List.map_nil, List.mem_cons,
        List.mem_singleton, List.not_mem_nil, or_false] at hc
      rcases hc with rfl | rfl | rfl <;> simp only [inBounds] <;> omega
    · intro f hf
      rcases hfood with hnone | ⟨k, hk, -⟩
      · rw [hnone] at hf
        exact absurd hf (by simp)
      · rw [hk] at hf
        simp only [Option.some.injEq] at hf
        rw [← hf]
        exact sampledCell_inBounds gridSize rng hrng k
  induction h with
  | init s0 rng hrng => exact hstart rng s0 hrng
  | restart s rng hrng _ _ _ => exact hstart rng s hrng
  | key s k _ ih =>
    obtain ⟨h1, -, h3, -, -⟩ := keydownHandler_fields k s
    rw [h1, h3]; exact ih
  | tick s rng hrng _ ih =>
    obtain ⟨hcells, hfood⟩ := ih
    rcases gameStep_state_cases gridSize scoreElement rng s with
      ⟨-, heq⟩ | ⟨-, -, heq⟩ | ⟨head, rest, hsnake, -, heq | ⟨hx, hy, -, -, food, hf, heq⟩ |
        ⟨hx, hy, -, -, heq⟩⟩
    · rw [heq]; exact ⟨hcells, hfood⟩
    · rw [heq]; exact ⟨hcells, hfood⟩
    · rw [heq]; exact ⟨hcells, hfood⟩
    · rw [heq]
      have hnew : inBounds gridSize ⟨head.x + s.nextDirection.x, head.y + s.nextDirection.y⟩ :=
        ⟨(abs_le.mp hx).1, (abs_le.mp hx).2, (abs_le.mp hy).1, (abs_le.mp hy).2⟩
      constructor
      · intro c hc
        change c ∈ cells (⟨head.x + s.nextDirection.x, head.y + s.nextDirection.y, true⟩ ::
          { head with isHead := false } :: rest) at hc
        rw [cells, List.map_cons, ← cells, cells_demote, List.mem_cons] at hc
        rcases hc with rfl | hc
        · exact hnew
        · exact hcells c (by rw [hsnake]; exact hc)
      · intro f hff
        rcases hf with hsame | ⟨k, hk, -⟩
        · exact hfood f (by rw [← hsame]; exact hff)
        · have hff2 : food = some f := hff
          rw [hk] at hff2
          simp only [Option.some.injEq] at hff2
          rw [← hff2]
          exact sampledCell_inBounds gridSize rng hrng k
    · rw [heq]
      have hnew : inBounds gridSize ⟨head.x + s.nextDirection.x, head.y + s.nextDirection.y⟩ :=
        ⟨(abs_le.mp hx).1, (abs_le.mp hx).2, (abs_le.mp hy).1, (abs_le.mp hy).2⟩
      refine ⟨?_, hfood⟩
      intro c hc
      change c ∈ cells ((⟨head.x + s.nextDirection.x, head.y + s.nextDirection.y, true⟩ ::
        { head with isHead := false } :: rest).dropLast) at hc
      rw [cells_dropLast] at hc
      have hc2 := List.dropLast_subset _ hc
      rw [cells, List.map_cons, ← cells, cells_demote, List.mem_cons] at hc2
      rcases hc2 with rfl | hc2
      · exact hnew
      · exact hcells c (by rw [hsnake]; exact hc2)

/-- Witness of C18: grid of size 19, the state after `init`, the key w and a tick. -/
theorem reachable_in_bounds_witness :
    (∀ c ∈ cells (gameStep 19 true (constRng 3)
        (keydownHandler "w" (startGame 19 (constRng 3) scenarioOver))).state.snake,
        inBounds 19 c) ∧
      ∀ f : Cell, (gameStep 19 true (constRng 3)
        (keydownHandler "w" (startGame 19 (constRng 3) scenarioOver))).state.food = some f →
          inBounds 19 f :=
  reachable_in_bounds 19 true _ (by decide)
    (Reachable.tick _ (constRng 3) (validRng_constRng 19 3 (by decide) (by decide))
      (Reachable.key _ "w"
        (Reachable.init scenarioOver (constRng 3)
          (validRng_constRng 19 3 (by decide) (by decide)))))

/-- C19: in every state reachable from the initial state by key events, ticks and restarts,
whatever the samples, `score = 10 * (snake length - 3)` with a snake of at least 3 cells, so
the score is a multiple of 10; a tick that changes the score adds 10 and lengthens the snake by
one, and a key event leaves the score as it is. -/
theorem reachable_score_tracks_growth (gridSize : Int) (scoreElement : Bool) (s : GameState)
    (h : Reachable gridSize scoreElement s) :
    3 ≤ s.snake.length ∧ s.score = 10 * (s.snake.length - 3) ∧ 10 ∣ s.score ∧
      (∀ rng : Nat → Int,
        (gameStep gridSize scoreElement rng s).state.score ≠ s.score →
          (gameStep gridSize scoreElement rng s).state.snake.length = s.snake.length + 1 ∧
            (gameStep gridSize scoreElement rng s).state.score = s.score + 10) ∧
      ∀ k : String, (keydownHandler k s).score = s.score := by
  have hinv : s.score + 30 = 10 * s.snake.length := by
    induction h with
    | init s0 rng _ =>
      obtain ⟨food, -, heq⟩ := startGame_cases gridSize rng s0
      rw [heq]; rfl
    | restart s rng _ _ _ _ =>
      obtain ⟨food, -, heq⟩ := startGame_cases gridSize rng s
      rw [heq]; rfl
    | key s k _ ih =>
      obtain ⟨h1, -, -, h4, -⟩ := keydownHandler_fields k s
      rw [h1, h4]; exact ih
    | tick s rng _ _ ih =>
      rcases gameStep_state_cases gridSize scoreElement rng s with
        ⟨-, heq⟩ | ⟨-, -, heq⟩ | ⟨head, rest, hsnake, -, heq | ⟨-, -, -, -, food, -, heq⟩ |
          ⟨-, -, -, -, heq⟩⟩
      · rw [heq]; exact ih
      · rw [heq]; exact ih
      · rw [heq]; exact ih
      · rw [heq]
        rw [hsnake] at ih
        simp only [List.length_cons] at ih ⊢
        omega
      · rw [heq]
        rw [hsnake] at ih
        simp only [List.length_dropLast, List.length_cons] at ih ⊢
        omega
  refine ⟨by omega, by omega, by omega, ?_, fun k => (keydownHandler_fields k s).2.2.2.1⟩
  intro rng hchange
  rcases gameStep_state_cases gridSize scoreElement rng s with
    ⟨-, heq⟩ | ⟨-, -, heq⟩ | ⟨head, rest, hsnake, -, heq | ⟨-, -, -, -, food, -, heq⟩ |
      ⟨-, -, -, -, heq⟩⟩
  · rw [heq] at hchange; exact absurd rfl hchange
  · rw [heq] at hchange; exact absurd rfl hchange
  · rw [heq] at hchange; exact absurd rfl hchange
  · rw [heq, hsnake]
    exact ⟨by simp, rfl⟩
  · rw [heq] at hchange; exact absurd rfl hchange

/-- Witness of C19: scenario A, the state `init` leaves on a grid of size 19 when the first
sampled cell is (1,0); its score is 0 with 3 cells, and the tick that eats adds 10. -/
theorem reachable_score_tracks_growth_witness :
    3 ≤ (startGame 19 foodAheadRng scenarioOver).snake.length ∧
      (startGame 19 foodAheadRng scenarioOver).score =
        10 * ((startGame 19 foodAheadRng scenarioOver).snake.length - 3) ∧
      10 ∣ (startGame 19 foodAheadRng scenarioOver).score ∧
      (∀ rng : Nat → Int,
        (gameStep 19 true rng (startGame 19 foodAheadRng scenarioOver)).state.score ≠
            (startGame 19 foodAheadRng scenarioOver).score →
          (gameStep 19 true rng (startGame 19 foodAheadRng scenarioOver)).state.snake.length =
              (startGame 19 foodAheadRng scenarioOver).snake.length + 1 ∧
            (gameStep 19 true rng (startGame 19 foodAheadRng scenarioOver)).state.score =
              (startGame 19 foodAheadRng scenarioOver).score + 10) ∧
      ∀ k : String, (keydownHandler k (startGame 19 foodAheadRng scenarioOver)).score =
        (startGame 19 foodAheadRng scenarioOver).score :=
  reachable_score_tracks_growth 19 true _
    (Reachable.init scenarioOver foodAheadRng validRng_foodAheadRng)

/-- Ticks in a row keep the state reachable. -/
theorem reachable_gameSteps (gridSize : Int) (scoreElement : Bool) (rngs : List (Nat → Int))
    (hrngs : ∀ rng ∈ rngs, ValidRng gridSize rng) :
    ∀ s : GameState, Reachable gridSize scoreElement s →
      Reachable gridSize scoreElement (gameSteps gridSize scoreElement rngs s) := by
  induction rngs with
  | nil => intro s hs; exact hs
  | cons rng tl ih =>
    intro s hs
    exact ih (fun r hr => hrngs r (List.mem_cons_of_mem _ hr)) _
      (Reachable.tick s rng (hrngs rng (List.mem_cons_self _ _)) hs)

/-- C20, the claim as stated fails: on a grid of size 19 the snake runs to the right edge,
turns up for one tick and then turns right into the wall; the collision tick has committed the
direction (1,0) and left the snake [(9,-1),(9,0),(8,0)] in place, so in this reachable
game-over state `snake[0] - snake[1] = (0,-1)` is not the current direction. -/
theorem reachable_neck_counterexample :
    Reachable 19 true turnedIntoWall ∧
      turnedIntoWall.gameOver = true ∧
      cells turnedIntoWall.snake = [⟨9, -1⟩, ⟨9, 0⟩, ⟨8, 0⟩] ∧
      turnedIntoWall.direction = ⟨1, 0⟩ ∧
      ¬ neckBehind turnedIntoWall.snake turnedIntoWall.direction := by
  have hv : ValidRng 19 (constRng 3) := validRng_constRng 19 3 (by decide) (by decide)
  refine ⟨?_, by decide, by decide, by decide, ?_⟩
  · exact Reachable.tick _ _ hv (Reachable.key _ "d" (Reachable.tick _ _ hv
      (Reachable.key _ "w" (reachable_gameSteps 19 true _
        (fun r hr => by rw [List.eq_of_mem_replicate hr]; exact hv) _
        (Reachable.init scenarioOver (constRng 3) hv)))))
  · rintro ⟨head, neck, rest, hs, hx, -⟩
    have hsnake : turnedIntoWall.snake = [⟨9, -1, true⟩, ⟨9, 0, false⟩, ⟨8, 0, false⟩] := by
      decide
    have hdir : turnedIntoWall.direction = ⟨1, 0⟩ := by decide
    rw [hsnake] at hs
    rw [hdir] at hx
    obtain ⟨rfl, hs2⟩ := List.cons.inj hs
    obtain ⟨rfl, -⟩ := List.cons.inj hs2
    exact absurd hx (by decide)

/-- C20 as amended: in every state reachable from the initial state by key events, ticks and
restarts, consecutive snake cells differ by one unit step along one axis (`|dx| + |dy| = 1`),
and while the game is not over `snake[0] - snake[1]` is the current direction. -/
theorem reachable_contiguous (gridSize : Int) (scoreElement : Bool) (s : GameState)
    (h : Reachable gridSize scoreElement s) :
    contiguous (cells s.snake) ∧ (s.gameOver = false → neckBehind s.snake s.direction) := by
  refine ⟨?_, reachable_neck gridSize scoreElement s h⟩
  have hstart : ∀ (rng : Nat → Int) (s0 : GameState),
      contiguous (cells (startGame gridSize rng s0).snake) := by
    intro rng s0
    obtain ⟨food, -, heq⟩ := startGame_cases gridSize rng s0
    rw [heq]
    refine contiguous_cons ⟨0, 0⟩ ⟨-1, 0⟩ _ (by decide)
      (contiguous_cons ⟨-1, 0⟩ ⟨-2, 0⟩ _ (by decide) ?_)
    intro i a b _ hb
    simp at hb
  induction h with
  | init s0 rng _ => exact hstart rng s0
  | restart s rng _ _ _ _ => exact hstart rng s
  | key s k _ ih =>
    rw [(keydownHandler_fields k s).1]; exact ih
  | tick s rng _ hs ih =>
    have hn := (reachable_directions gridSize scoreElement s hs).2.1
    have hgrown : ∀ (head : Segment) (rest : List Segment), s.snake = head :: rest →
        contiguous (cells (⟨head.x + s.nextDirection.x, head.y + s.nextDirection.y, true⟩ ::
          { head with isHead := false } :: rest)) := by
      intro head rest hsnake
      rw [hsnake] at ih
      refine contiguous_cons ⟨head.x + s.nextDirection.x, head.y + s.nextDirection.y⟩
        ⟨head.x, head.y⟩ (cells rest) ?_ ih
      simpa using isCardinal_abs s.nextDirection hn
    rcases gameStep_state_cases gridSize scoreElement rng s with
      ⟨-, heq⟩ | ⟨-, -, heq⟩ | ⟨head, rest, hsnake, -, heq | ⟨-, -, -, -, food, -, heq⟩ |
        ⟨-, -, -, -, heq⟩⟩
    · rw [heq]; exact ih
    · rw [heq]; exact ih
    · rw [heq]; exact ih
    · rw [heq]; exact hgrown head rest hsnake
    · rw [heq]
      change contiguous (cells ((⟨head.x + s.nextDirection.x, head.y + s.nextDirection.y, true⟩ ::
        { head with isHead := false } :: rest).dropLast))
      rw [cells_dropLast]
      exact contiguous_dropLast _ (hgrown head rest hsnake)

/-- Witness of the amended C20: the state after `init` on a grid of size 19, the key w and a
tick. -/
theorem reachable_contiguous_witness :
    contiguous (cells (gameStep 19 true (constRng 3)
        (keydownHandler "w" (startGame 19 (constRng 3) scenarioOver))).state.snake) ∧
      ((gameStep 19 true (constRng 3)
          (keydownHandler "w" (startGame 19 (constRng 3) scenarioOver))).state.gameOver =
            false →
        neckBehind
          (gameStep 19 true (constRng 3)
            (keydownHandler "w" (startGame 19 (constRng 3) scenarioOver))).state.snake
          (gameStep 19 true (constRng 3)
            (keydownHandler "w" (startGame 19 (constRng 3) scenarioOver))).state.direction) :=
  reachable_contiguous 19 true _
    (Reachable.tick _ (constRng 3) (validRng_constRng 19 3 (by decide) (by decide))
      (Reachable.key _ "w"
        (Reachable.init scenarioOver (constRng 3)
          (validRng_constRng 19 3 (by decide) (by decide)))))

/-! ## Reachable states with stale food -/

/-- On a grid of size 19 a start whose first sampled cell is (1,0) gives scenario A. -/
theorem startGame_foodAhead (s0 : GameState) : startGame 19 foodAheadRng s0 = scenarioA := by
  unfold startGame
  rw [createInitialSnake_resetGameState]
  decide

/-- Scenario A is a reachable state on a grid of size 19. -/
theorem scenarioA_reachable (scoreElement : Bool) : Reachable 19 scoreElement scenarioA := by
  have h : Reachable 19 scoreElement (startGame 19 foodAheadRng scenarioOver) :=
    Reachable.init scenarioOver foodAheadRng validRng_foodAheadRng
  rwa [startGame_foodAhead] at h

/-- In scenario A with every draw equal to 9 the tick eats the food and the exhausted
`spawnFood` leaves the state as `gameStep` handed it over. -/
theorem gameStep_scenarioA_stuck :
    (gameStep 19 true (constRng 9) scenarioA).state = scenarioAEaten := by
  have hall : ∀ k, k < 100 → sampledCell 19 (constRng 9) k ∈ cells scenarioAEaten.snake := by
    intro k _
    have hc : sampledCell 19 (constRng 9) k = ⟨0, 0⟩ := by
      simp [sampledCell, constRng, halfGrid]
    rw [hc]
    decide
  rw [gameStep_alive 19 true (constRng 9) scenarioA ⟨0, 0, true⟩
    [⟨-1, 0, false⟩, ⟨-2, 0, false⟩] rfl rfl]
  exact spawnFood_exhausted 19 (constRng 9) scenarioAEaten hall

/-- C11, the code at the failing input: on a grid of size 19 with the score element present,
`init` puts the food at (1,0); in the first tick the head eats it and every draw of `spawnFood`
gives 9. The state after the tick is reachable, and its food is set and lies on the snake, on
the head's cell (1,0). -/
theorem reachable_food_on_snake :
    Reachable 19 true
        (gameStep 19 true (constRng 9) (startGame 19 foodAheadRng scenarioOver)).state ∧
      (gameStep 19 true (constRng 9) (startGame 19 foodAheadRng scenarioOver)).state.food =
        some ⟨1, 0⟩ ∧
      (cells (gameStep 19 true (constRng 9)
        (startGame 19 foodAheadRng scenarioOver)).state.snake).head? = some ⟨1, 0⟩ ∧
      (⟨1, 0⟩ : Cell) ∈ cells (gameStep 19 true (constRng 9)
        (startGame 19 foodAheadRng scenarioOver)).state.snake := by
  have hv : ValidRng 19 (constRng 9) := validRng_constRng 19 9 (by decide) (by decide)
  refine ⟨Reachable.tick _ _ hv (Reachable.init scenarioOver foodAheadRng
    validRng_foodAheadRng), ?_⟩
  rw [startGame_foodAhead, gameStep_scenarioA_stuck]
  decide

/-- C12, the code at the failing input: on a grid of size 19 with the score element present,
after the tick of scenario A in which the head eats the food at (1,0) and every draw of
`spawnFood` gives 9, the keys s, a, w, d, each followed by a tick, lead the snake round a 2x2
square and back onto the cell (1,0), which is now its tail cell and still holds the eaten food.
The last tick grows the snake: the reachable state is alive and has the cell (1,0) twice. -/
theorem reachable_duplicate_cells :
    Reachable 19 true staleCoilEaten ∧
      staleCoilEaten.gameOver = false ∧
      cells staleCoilEaten.snake = [⟨1, 0⟩, ⟨0, 0⟩, ⟨0, 1⟩, ⟨1, 1⟩, ⟨1, 0⟩] ∧
      ¬ (cells staleCoilEaten.snake).Nodup := by
  have hv : ValidRng 19 (constRng 3) := validRng_constRng 19 3 (by decide) (by decide)
  have hv9 : ValidRng 19 (constRng 9) := validRng_constRng 19 9 (by decide) (by decide)
  have hstale : staleCoil =
      (gameStep 19 true (constRng 3) (keydownHandler "w"
        (gameStep 19 true (constRng 3) (keydownHandler "a"
          (gameStep 19 true (constRng 3)
            (keydownHandler "s" scenarioAEaten)).state)).state)).state := by
    unfold staleCoil
    rw [gameStep_scenarioA_stuck]
  have heaten : staleCoilEaten =
      { snake := [⟨1, 0, true⟩, ⟨0, 0, false⟩, ⟨0, 1, false⟩, ⟨1, 1, false⟩, ⟨1, 0, false⟩],
        direction := ⟨1, 0⟩, nextDirection := ⟨1, 0⟩, food := some ⟨-6, -6⟩, score := 20,
        gameOver := false } := by
    unfold staleCoilEaten
    rw [hstale]
    decide
  refine ⟨?_, ?_, ?_, ?_⟩
  · exact Reachable.tick _ _ hv (Reachable.key _ "d" (Reachable.tick _ _ hv
      (Reachable.key _ "w" (Reachable.tick _ _ hv (Reachable.key _ "a" (Reachable.tick _ _ hv
        (Reachable.key _ "s" (Reachable.tick _ _ hv9 (scenarioA_reachable true)))))))))
  · rw [heaten]
  · rw [heaten]; decide
  · rw [heaten]; decide

/-- C15, the code at the failing input: on a page without the score element scenario A is
reachable (the state `init` leaves when the first sampled cell is (1,0)), and the tick in which
the head eats the food ends in a TypeError, after the snake has grown and the score is raised,
with `spawnFood` not run. -/
theorem gameStep_throws_without_score_element :
    Reachable 19 false (startGame 19 foodAheadRng scenarioOver) ∧
      (gameStep 19 false (constRng 3) (startGame 19 foodAheadRng scenarioOver)).outcome =
        Outcome.typeError ∧
      (gameStep 19 false (constRng 3) (startGame 19 foodAheadRng scenarioOver)).state =
        scenarioAEaten := by
  refine ⟨Reachable.init scenarioOver foodAheadRng validRng_foodAheadRng, ?_, ?_⟩
  · rw [startGame_foodAhead]; decide
  · rw [startGame_foodAhead]; decide

/-- C5, the code at the failing input: on a grid of size 19 with the score element present
the coiled snake [(0,0),(0,1),(1,1),(1,0)] with the eaten food still on its tail cell (1,0) is
a reachable state (scenario A, the tick with every draw 9, then the keys s, a, w, each
followed by a tick, then the key d). The game is alive, the new head (1,0) is within the
bounds, on the food cell and on the tail cell, so the snake grows and the tail is not vacated;
`gameStep` does not end the game: it leaves an alive snake of five cells, two of them (1,0),
and a score of 20. -/
theorem gameStep_growing_tick_onto_tail :
    Reachable 19 true (coiled (some ⟨1, 0⟩)) ∧
      (coiled (some ⟨1, 0⟩)).gameOver = false ∧
      (coiled (some ⟨1, 0⟩)).snake.head? = some ⟨0, 0, true⟩ ∧
      |(0 : Int) + (coiled (some ⟨1, 0⟩)).nextDirection.x| ≤ halfGrid 19 ∧
      |(0 : Int) + (coiled (some ⟨1, 0⟩)).nextDirection.y| ≤ halfGrid 19 ∧
      (coiled (some ⟨1, 0⟩)).food = some ⟨0 + (coiled (some ⟨1, 0⟩)).nextDirection.x,
        0 + (coiled (some ⟨1, 0⟩)).nextDirection.y⟩ ∧
      (cells (coiled (some ⟨1, 0⟩)).snake).getLast? =
        some ⟨0 + (coiled (some ⟨1, 0⟩)).nextDirection.x,
          0 + (coiled (some ⟨1, 0⟩)).nextDirection.y⟩ ∧
      (gameStep 19 true (constRng 3) (coiled (some ⟨1, 0⟩))).state.gameOver = false ∧
      cells (gameStep 19 true (constRng 3) (coiled (some ⟨1, 0⟩))).state.snake =
        [⟨1, 0⟩, ⟨0, 0⟩, ⟨0, 1⟩, ⟨1, 1⟩, ⟨1, 0⟩] ∧
      (gameStep 19 true (constRng 3) (coiled (some ⟨1, 0⟩))).state.score = 20 := by
  have hv : ValidRng 19 (constRng 3) := validRng_constRng 19 3 (by decide) (by decide)
  have hv9 : ValidRng 19 (constRng 9) := validRng_constRng 19 9 (by decide) (by decide)
  have hturn : keydownHandler "d" staleCoil = coiled (some ⟨1, 0⟩) := by
    unfold staleCoil
    rw [gameStep_scenarioA_stuck]
    decide
  have hreach : Reachable 19 true (keydownHandler "d" staleCoil) :=
    Reachable.key _ "d" (Reachable.tick _ _ hv
      (Reachable.key _ "w" (Reachable.tick _ _ hv (Reachable.key _ "a" (Reachable.tick _ _ hv
        (Reachable.key _ "s" (Reachable.tick _ _ hv9 (scenarioA_reachable true))))))))
  rw [hturn] at hreach
  exact ⟨hreach, by decide⟩

end Snake
